import Mathlib

/-!
# ecctl `deployment create`: request assembly

A shallow embedding of `cmd/deployment/create.go`: the template defaulter
`setDefaultTemplate`, the topology codec `esTopologyParseGB` and the body of
`createCmd.RunE`, with the calls the command makes to its collaborators
recorded as a trace of events.
-/

namespace Ecctl

/-! ## Go strings -/

/-- Go `strings.HasPrefix` on the characters of a string. -/
def hasPrefixChars : List Char → List Char → Bool
  | _, [] => true
  | [], _ :: _ => false
  | c :: cs, p :: ps => c == p && hasPrefixChars cs ps

/-- Go `strings.Contains` on the characters of a string: some position of `s`
starts a copy of `sub`. -/
def containsChars : List Char → List Char → Bool
  | [], sub => hasPrefixChars [] sub
  | c :: cs, sub => hasPrefixChars (c :: cs) sub || containsChars cs sub

/-- Go `strings.Contains(s, substr)`, a string being the sequence of its
characters. -/
def stringsContains (s substr : String) : Bool :=
  containsChars s.toList substr.toList

/-! ## Template defaulter -/

/-- Embedding of `setDefaultTemplate` (create.go, lines 243-262). -/
def setDefaultTemplate (region : String) : String :=
  let region := if stringsContains region "azure" then "azure" else region
  let region := if stringsContains region "gcp" then "gcp" else region
  if region = "azure" then "azure-io-optimized"
  else if region = "gcp" then "gcp-io-optimized"
  else if region = "ece-region" then "default"
  else "aws-io-optimized-v2"

/-! ## Errors, records and collaborators -/

/-- Go `error` values as the command builds and forwards them.  `text msg` is
`errors.New(msg)` or a collaborator's error whose message is `msg`;
`errorf format arg` is `fmt.Errorf(format, arg)` for a format with one `%s`;
`multi pfx e1 e2` is `multierror.NewPrefixed(pfx).Append(e1, e2)`. -/
inductive GoError where
  | text (msg : String)
  | errorf (format : String) (arg : GoError)
  | multi (pfx : String) (e1 e2 : GoError)
  deriving DecidableEq, Repr

/-- The struct `elasticsearchTopologyElement` (create.go, lines 264-268): the
decoded form of one `--es-node-topology` fragment, its size still a string. -/
structure elasticsearchTopologyElement where
  NodeType : String
  Size : String
  ZoneCount : Int
  deriving DecidableEq, Repr

/-- The struct `depresourceapi.ElasticsearchTopologyElement` with the fields
that create.go fills at lines 287-291 (its declaration is in another
package): the size is the megabyte count returned by `ParseGb`. -/
structure ElasticsearchTopologyElement where
  NodeType : String
  ZoneCount : Int
  Size : Int
  deriving DecidableEq, Repr

/-- The struct `depresourceapi.InstanceParams` as filled at lines 140-164. -/
structure InstanceParams where
  RefID : String
  Size : Int
  ZoneCount : Int
  deriving DecidableEq, Repr

/-- The struct `depresourceapi.NewPayloadParams` as filled at lines 128-165.
`API` and `Writer` are the process-wide handles of `ecctl.Get()` and are the
same in every call, so they are not fields here. -/
structure NewPayloadParams where
  Name : String
  DeploymentTemplateID : String
  Version : String
  Region : String
  Plugins : List String
  TopologyElements : Option (List String)
  ApmEnable : Bool
  AppsearchEnable : Bool
  EnterpriseSearchEnable : Bool
  ElasticsearchInstance : InstanceParams
  KibanaInstance : InstanceParams
  ApmInstance : InstanceParams
  AppsearchInstance : InstanceParams
  EnterpriseSearchInstance : InstanceParams
  deriving DecidableEq, Repr

/-- The struct `deploymentapi.CreateParams` as filled at lines 179-183; the
request is the pointer `payload`, `none` standing for `nil`. -/
structure CreateParams (Payload : Type) where
  RequestID : String
  Request : Option Payload
  deriving DecidableEq, Repr

/-- The struct `cmdutil.TrackParamsConfig` as filled at lines 194-199. -/
structure TrackParamsConfig (Response : Type) where
  DeploymentID : String
  Track : Bool
  Response : Response
  deriving DecidableEq, Repr

/-- The values read from the command's flags at lines 45-76 and 176. A slice
that the code compares with `nil` is an `Option`. -/
structure Flags where
  file : String
  track : Bool
  generatePayload : Bool
  name : String
  version : String
  dt : String
  esZoneCount : Int
  esSize : String
  esRefID : String
  topologyElements : Option (List String)
  plugin : List String
  kibanaZoneCount : Int
  kibanaSize : String
  kibanaRefID : String
  apmEnable : Bool
  apmZoneCount : Int
  apmSize : String
  apmRefID : String
  appsearchEnable : Bool
  appsearchZoneCount : Int
  appsearchSize : String
  appsearchRefID : String
  enterpriseSearchEnable : Bool
  enterpriseSearchZoneCount : Int
  enterpriseSearchSize : String
  enterpriseSearchRefID : String
  requestID : String
  deriving DecidableEq, Repr

/-- The flag defaults declared by `initFlags` (create.go, lines 207-241). -/
def defaultFlags : Flags where
  file := ""
  track := false
  generatePayload := false
  name := ""
  version := ""
  dt := ""
  esZoneCount := 1
  esSize := "4g"
  esRefID := "main-elasticsearch"
  topologyElements := none
  plugin := []
  kibanaZoneCount := 1
  kibanaSize := "1g"
  kibanaRefID := "main-kibana"
  apmEnable := false
  apmZoneCount := 1
  apmSize := "0.5g"
  apmRefID := "main-apm"
  appsearchEnable := false
  appsearchZoneCount := 1
  appsearchSize := "2g"
  appsearchRefID := "main-appsearch"
  enterpriseSearchEnable := false
  enterpriseSearchZoneCount := 1
  enterpriseSearchSize := "4g"
  enterpriseSearchRefID := "main-enterprise_search"
  requestID := ""

/-- The functions of other packages that `create.go` calls, taken as
parameters: `sdkcmdutil.DecodeDefinition` (on the `--file` value, giving the
decoded pointer), `deploymentsize.ParseGb`, `json.Unmarshal` into an
`elasticsearchTopologyElement`, `json.Marshal` of an
`ElasticsearchTopologyElement`, `depresourceapi.NewPayload`,
`Formatter.Format("", payload)`, `deploymentapi.RequestID`,
`deploymentapi.Create`, the `ID` of a create response and `cmdutil.Track`. -/
structure Collaborators (Payload Response : Type) where
  decodeDefinition : String → Except GoError (Option Payload)
  parseGb : String → Except GoError Int
  jsonUnmarshal : String → Except GoError elasticsearchTopologyElement
  jsonMarshal : ElasticsearchTopologyElement → Except GoError String
  newPayload : NewPayloadParams → Except GoError (Option Payload)
  format : Option Payload → Except GoError Unit
  requestID : String → String
  create : CreateParams Payload → Except GoError Response
  responseID : Response → String
  track : TrackParamsConfig Response → Except GoError Unit

/-- One observable action of the command: a call to a collaborator (with its
arguments), the call of `esTopologyParseGB`, or a write to
`cmd.ErrOrStderr()`. -/
inductive Event (Payload Response : Type) where
  | decodeDefinition (file : String)
  | parseGb (size : String)
  | esTopologyParseGB (topology : List String)
  | jsonUnmarshal (raw : String)
  | jsonMarshal (e : ElasticsearchTopologyElement)
  | newPayload (params : NewPayloadParams)
  | format (payload : Option Payload)
  | requestID (flag : String)
  | create (params : CreateParams Payload)
  | stderrWrite (text : String)
  | track (params : TrackParamsConfig Response)
  deriving DecidableEq, Repr

/-- What a piece of the command does: the events it produces, in order, and
the value or error it ends with. -/
abbrev Run (Payload Response α : Type) := List (Event Payload Response) × Except GoError α

/-- A single call: its event and its outcome. -/
def Run.call {Payload Response α : Type} (ev : Event Payload Response)
    (r : Except GoError α) : Run Payload Response α :=
  ([ev], r)

/-- Sequencing with Go's `if err != nil { return err }`: an error ends the
run, a value is passed on and the events are appended. -/
def Run.andThen {Payload Response α β : Type} (x : Run Payload Response α)
    (k : α → Run Payload Response β) : Run Payload Response β :=
  match x with
  | (tr, .error e) => (tr, .error e)
  | (tr, .ok a) => (tr ++ (k a).1, (k a).2)

/-- Go `fmt.Fprintln` of string operands: separated by spaces, newline added. -/
def fprintln : List String → String
  | [] => "\n"
  | [a] => a ++ "\n"
  | a :: b :: rest => a ++ " " ++ fprintln (b :: rest)

/-! ## Topology codec -/

section Codec

variable {Payload Response : Type}

/-- The loop of `esTopologyParseGB` (create.go, lines 272-300) over the
remaining input, `t` being the slice built so far. -/
def esTopologyLoop (c : Collaborators Payload Response) :
    List String → List String → Run Payload Response (List String)
  | [], t => ([], .ok t)
  | rawElement :: rest, t =>
    match c.jsonUnmarshal rawElement with
    | .error err =>
      ([.jsonUnmarshal rawElement],
        .error (.errorf "failed unpacking raw elasticsearch node topology: %s" err))
    | .ok element =>
      if element.Size = "" then
        ([.jsonUnmarshal rawElement],
          .error (.text "elasticsearch node topology: memory size cannot be empty"))
      else
        match c.parseGb element.Size with
        | .error err => ([.jsonUnmarshal rawElement, .parseGb element.Size], .error err)
        | .ok elementSizeMB =>
          let esTopologyElement : ElasticsearchTopologyElement :=
            { NodeType := element.NodeType, ZoneCount := element.ZoneCount, Size := elementSizeMB }
          match c.jsonMarshal esTopologyElement with
          | .error err =>
            ([.jsonUnmarshal rawElement, .parseGb element.Size, .jsonMarshal esTopologyElement],
              .error (.errorf "failed unpacking elasticsearch node topology: %s" err))
          | .ok parsedElement =>
            let r := esTopologyLoop c rest (t ++ [parsedElement])
            ([.jsonUnmarshal rawElement, .parseGb element.Size, .jsonMarshal esTopologyElement]
              ++ r.1, r.2)

/-- Embedding of `esTopologyParseGB` (create.go, lines 270-303). -/
def esTopologyParseGB (c : Collaborators Payload Response) (topology : List String) :
    Run Payload Response (List String) :=
  esTopologyLoop c topology []

/-- The per-element step in the words of the specification: decode the
fragment, reject an empty size, parse the size, re-encode. -/
def normalizeStep (c : Collaborators Payload Response) (rawElement : String) :
    Except GoError String :=
  match c.jsonUnmarshal rawElement with
  | .error err => .error (.errorf "failed unpacking raw elasticsearch node topology: %s" err)
  | .ok element =>
    if element.Size = "" then
      .error (.text "elasticsearch node topology: memory size cannot be empty")
    else
      match c.parseGb element.Size with
      | .error err => .error err
      | .ok mb =>
        match c.jsonMarshal { NodeType := element.NodeType, ZoneCount := element.ZoneCount, Size := mb } with
        | .error err => .error (.errorf "failed unpacking elasticsearch node topology: %s" err)
        | .ok s => .ok s

/-- The fail-fast element-wise traversal in the words of the specification:
outputs in input order, the first failing element's error and no list. -/
def traverseFailFast (step : String → Except GoError String) :
    List String → Except GoError (List String)
  | [] => .ok []
  | x :: xs =>
    match step x with
    | .error e => .error e
    | .ok y =>
      match traverseFailFast step xs with
      | .error e => .error e
      | .ok ys => .ok (y :: ys)

end Codec

/-! ## The command -/

section Command

variable {Payload Response : Type}

/-- The `NewPayloadParams` literal of create.go, lines 128-165. -/
def newPayloadParams (region : String) (f : Flags) (dt : String)
    (apmSizeMB appsearchSizeMB esSizeMB enterpriseSearchSizeMB kibanaSizeMB : Int)
    (topologyElements : Option (List String)) : NewPayloadParams where
  Name := f.name
  DeploymentTemplateID := dt
  Version := f.version
  Region := region
  Plugins := f.plugin
  TopologyElements := topologyElements
  ApmEnable := f.apmEnable
  AppsearchEnable := f.appsearchEnable
  EnterpriseSearchEnable := f.enterpriseSearchEnable
  ElasticsearchInstance :=
    { RefID := f.esRefID, Size := esSizeMB, ZoneCount := f.esZoneCount }
  KibanaInstance :=
    { RefID := f.kibanaRefID, Size := kibanaSizeMB, ZoneCount := f.kibanaZoneCount }
  ApmInstance :=
    { RefID := f.apmRefID, Size := apmSizeMB, ZoneCount := f.apmZoneCount }
  AppsearchInstance :=
    { RefID := f.appsearchRefID, Size := appsearchSizeMB, ZoneCount := f.appsearchZoneCount }
  EnterpriseSearchInstance :=
    { RefID := f.enterpriseSearchRefID, Size := enterpriseSearchSizeMB,
      ZoneCount := f.enterpriseSearchZoneCount }

/-- Lines 78-88 of `RunE`: the payload pointer starts `nil` and is filled from
the `--file` definition when the flag is not empty. -/
def decodeFile (c : Collaborators Payload Response) (f : Flags) :
    Run Payload Response (Option Payload) :=
  if f.file ≠ "" then
    match c.decodeDefinition f.file with
    | .error err =>
      ([.decodeDefinition f.file],
        .error (.multi "failed reading the file definition" err
          (.text "could not read the specified file, please make sure it exists")))
    | .ok payload => ([.decodeDefinition f.file], .ok payload)
  else ([], .ok none)

/-- Lines 119-124 of `RunE`: a non-nil topology slice is normalized. -/
def normalizeTopology (c : Collaborators Payload Response) (f : Flags) :
    Run Payload Response (Option (List String)) :=
  match f.topologyElements with
  | none => ([], .ok none)
  | some topology =>
    let r := esTopologyParseGB c topology
    (Event.esTopologyParseGB topology :: r.1, r.2.map some)

/-- Lines 78-169 of `RunE`: from the flags to the payload handed to the
request coordinator. -/
def assemblePayload (c : Collaborators Payload Response) (region : String) (f : Flags) :
    Run Payload Response (Option Payload) :=
  (decodeFile c f).andThen fun payload =>
  let dt := if f.dt = "" then setDefaultTemplate region else f.dt
  (Run.call (.parseGb f.apmSize) (c.parseGb f.apmSize)).andThen fun apmSizeMB =>
  (Run.call (.parseGb f.appsearchSize) (c.parseGb f.appsearchSize)).andThen fun appsearchSizeMB =>
  (Run.call (.parseGb f.esSize) (c.parseGb f.esSize)).andThen fun esSizeMB =>
  (Run.call (.parseGb f.enterpriseSearchSize) (c.parseGb f.enterpriseSearchSize)).andThen
    fun enterpriseSearchSizeMB =>
  (Run.call (.parseGb f.kibanaSize) (c.parseGb f.kibanaSize)).andThen fun kibanaSizeMB =>
  (normalizeTopology c f).andThen fun topologyElements =>
  match payload with
  | some p => ([], .ok (some p))
  | none =>
    let params := newPayloadParams region f dt apmSizeMB appsearchSizeMB esSizeMB
      enterpriseSearchSizeMB kibanaSizeMB topologyElements
    Run.call (.newPayload params) (c.newPayload params)

/-- Lines 171-199 of `RunE`: print the payload, or attach the request
identifier, create the deployment and hand over to the tracker. -/
def coordinate (c : Collaborators Payload Response) (f : Flags) (payload : Option Payload) :
    Run Payload Response Unit :=
  if f.generatePayload then
    Run.call (.format payload) (c.format payload)
  else
    let reqID := c.requestID f.requestID
    let createParams : CreateParams Payload := { RequestID := reqID, Request := payload }
    match c.create createParams with
    | .error err =>
      ([.requestID f.requestID, .create createParams,
        .stderrWrite (fprintln ["The deployment creation returned with an error. Use the displayed request ID to recreate the deployment resources"]),
        .stderrWrite (fprintln ["Request ID:", reqID])],
        .error err)
    | .ok res =>
      let trackParams : TrackParamsConfig Response :=
        { DeploymentID := c.responseID res, Track := f.track, Response := res }
      ([.requestID f.requestID, .create createParams, .track trackParams], c.track trackParams)

/-- Embedding of `createCmd.RunE` (create.go, lines 44-200). -/
def RunE (c : Collaborators Payload Response) (region : String) (f : Flags) :
    Run Payload Response Unit :=
  (assemblePayload c region f).andThen (coordinate c f)

/-- The payloads a run hands to the formatter or to the create call. -/
def submitted : List (Event Payload Response) → List (Option Payload)
  | [] => []
  | .format payload :: tr => payload :: submitted tr
  | .create params :: tr => params.Request :: submitted tr
  | _ :: tr => submitted tr

/-- The texts a run writes to the error stream, in order. -/
def stderrText : List (Event Payload Response) → List String
  | [] => []
  | .stderrWrite text :: tr => text :: stderrText tr
  | _ :: tr => stderrText tr

/-- The parameters of the create calls of a run, in order. -/
def createCalls : List (Event Payload Response) → List (CreateParams Payload)
  | [] => []
  | .create params :: tr => params :: createCalls tr
  | _ :: tr => createCalls tr

/-- The size strings a run hands to the Size Parser, in order. -/
def parseGbCalls : List (Event Payload Response) → List String
  | [] => []
  | .parseGb size :: tr => size :: parseGbCalls tr
  | _ :: tr => parseGbCalls tr

/-- Events of the topology normalization. -/
def Event.isCodec : Event Payload Response → Bool
  | .esTopologyParseGB _ => true
  | .jsonUnmarshal _ => true
  | .parseGb _ => true
  | .jsonMarshal _ => true
  | _ => false

/-- Events of the part of the command before the request coordinator. -/
def Event.isAssembly : Event Payload Response → Bool
  | .decodeDefinition _ => true
  | .parseGb _ => true
  | .esTopologyParseGB _ => true
  | .jsonUnmarshal _ => true
  | .jsonMarshal _ => true
  | .newPayload _ => true
  | _ => false

/-- The five size flags in the order `RunE` parses them. -/
def sizeFlags (f : Flags) : List String :=
  [f.apmSize, f.appsearchSize, f.esSize, f.enterpriseSearchSize, f.kibanaSize]

/-- The checks of create.go, lines 94-124, all pass: the Size Parser accepts
each of the five size flags and the topology fragments, if any, normalize. -/
def flagsAccepted (c : Collaborators Payload Response) (f : Flags) : Prop :=
  (∀ s ∈ sizeFlags f, ∃ mb, c.parseGb s = .ok mb) ∧
    ∃ topology, (normalizeTopology c f).2 = .ok topology

end Command

/-! ## A size parser and a JSON codec for the collaborators

The properties of the command hold for every choice of collaborators. The
definitions below give one concrete choice, used where a property is about
what `encoding/json` does with the codec's own output and to run the command
on concrete flags. -/

/-- The value of a decimal digit. -/
def digitValue (c : Char) : Option Nat :=
  if 48 ≤ c.toNat ∧ c.toNat ≤ 57 then some (c.toNat - 48) else none

/-- The number written by a non-empty run of decimal digits, most significant
first, continuing from `acc`. -/
def digitsValue : List Char → Nat → Option Nat
  | [], acc => some acc
  | c :: cs, acc =>
    match digitValue c with
    | none => none
    | some d => digitsValue cs (acc * 10 + d)

/-- Splits a decimal body at its first `.`: the characters before it and,
when there is one, the characters after it. -/
def splitDot : List Char → List Char × Option (List Char)
  | [] => ([], none)
  | c :: cs =>
    if c = '.' then ([], some cs)
    else ((c :: (splitDot cs).1), (splitDot cs).2)

/-- Modelled from the spec: the Size Parser of section 4.1
(`deploymentsize.ParseGb`, which is not part of this repository). The input is
`<decimal><unit>` with unit `g` (times 1024) or `m` (times 1); the empty input
is zero megabytes; a sign, another unit or a non-numeric body is rejected; a
fractional value is rounded to the nearest megabyte. -/
def sizeParser (input : String) : Except GoError Int :=
  match input.toList.reverse with
  | [] => .ok 0
  | unit :: revBody =>
    let failure : Except GoError Int :=
      .error (.text ("failed to convert \"" ++ input ++ "\" to <size><unit>"))
    let scale : Option Nat := if unit = 'g' then some 1024 else if unit = 'm' then some 1 else none
    match scale with
    | none => failure
    | some k =>
      match splitDot revBody.reverse with
      | ([], _) => failure
      | (whole, none) =>
        match digitsValue whole 0 with
        | none => failure
        | some n => .ok ((n * k : Nat) : Int)
      | (_, some []) => failure
      | (whole, some frac) =>
        match digitsValue (whole ++ frac) 0 with
        | none => failure
        | some n =>
          let den := 10 ^ frac.length
          .ok (((2 * n * k + den) / (2 * den) : Nat) : Int)

/-- JSON white space. -/
def isWs (c : Char) : Bool :=
  c == ' ' || c == '\t' || c == '\n' || c == '\r'

/-- Drops leading JSON white space. -/
def skipWs : List Char → List Char
  | [] => []
  | c :: cs => if isWs c then skipWs cs else c :: cs

/-- The value of a hexadecimal digit. -/
def hexValue (c : Char) : Option Nat :=
  if 48 ≤ c.toNat ∧ c.toNat ≤ 57 then some (c.toNat - 48)
  else if 97 ≤ c.toNat ∧ c.toNat ≤ 102 then some (c.toNat - 87)
  else if 65 ≤ c.toNat ∧ c.toNat ≤ 70 then some (c.toNat - 55)
  else none

/-- The lower-case hexadecimal digit of a number below sixteen. -/
def hexDigit (n : Nat) : Char :=
  if n < 10 then Char.ofNat (48 + n) else Char.ofNat (87 + n)

/-- The character of a `\uXXXX` escape; a surrogate code unit decodes to
U+FFFD (pairs of surrogates are not combined in this model). -/
def codeUnitChar (n : Nat) : Char :=
  if 0xD800 ≤ n ∧ n < 0xE000 then Char.ofNat 0xFFFD else Char.ofNat n

/-- The character of a one-letter JSON escape. -/
def unescape (e : Char) : Option Char :=
  if e = '"' then some '"'
  else if e = '\\' then some '\\'
  else if e = '/' then some '/'
  else if e = 'b' then some (Char.ofNat 8)
  else if e = 'f' then some (Char.ofNat 12)
  else if e = 'n' then some '\n'
  else if e = 'r' then some '\r'
  else if e = 't' then some '\t'
  else none

/-- Puts a decoded character in front of the characters read after it. -/
def consChar (c : Char) : Option (List Char × List Char) → Option (List Char × List Char)
  | none => none
  | some (s, r) => some (c :: s, r)

/-- Reads a JSON string whose opening quote has been consumed: the decoded
characters and the input after the closing quote. -/
def readString : List Char → Option (List Char × List Char)
  | [] => none
  | c :: rest =>
    if c = '"' then some ([], rest)
    else if c = '\\' then
      match rest with
      | [] => none
      | e :: rest1 =>
        if e = 'u' then
          match rest1 with
          | h1 :: h2 :: h3 :: h4 :: rest2 =>
            match hexValue h1, hexValue h2, hexValue h3, hexValue h4 with
            | some a, some b, some d, some g =>
              consChar (codeUnitChar (((a * 16 + b) * 16 + d) * 16 + g)) (readString rest2)
            | _, _, _, _ => none
          | _ => none
        else
          match unescape e with
          | none => none
          | some ch => consChar ch (readString rest1)
    else if c.toNat < 32 then none
    else consChar c (readString rest)

/-- How `json.Marshal` writes one character of a string (HTML escaping on, as
it is by default; backspace and form feed as `\u0008` and `\u000c`). -/
def escapeChar (c : Char) : List Char :=
  if c = '"' then ['\\', '"']
  else if c = '\\' then ['\\', '\\']
  else if c = '\n' then ['\\', 'n']
  else if c = '\r' then ['\\', 'r']
  else if c = '\t' then ['\\', 't']
  else if c.toNat < 32 ∨ c = '<' ∨ c = '>' ∨ c = '&' then
    ['\\', 'u', '0', '0', hexDigit (c.toNat / 16), hexDigit (c.toNat % 16)]
  else if c.toNat = 0x2028 then ['\\', 'u', '2', '0', '2', '8']
  else if c.toNat = 0x2029 then ['\\', 'u', '2', '0', '2', '9']
  else [c]

/-- The body of a JSON string as `json.Marshal` writes it. -/
def escapeString : List Char → List Char
  | [] => []
  | c :: cs => escapeChar c ++ escapeString cs

/-- The decimal digits of a number, most significant first; `fuel` bounds the
number of digits. -/
def natDigits : Nat → Nat → List Char
  | 0, _ => []
  | fuel + 1, n =>
    if n < 10 then [Char.ofNat (48 + n)]
    else natDigits fuel (n / 10) ++ [Char.ofNat (48 + n % 10)]

/-- Go `strconv.Itoa` on a natural number. -/
def natChars (n : Nat) : List Char :=
  natDigits (n + 1) n

/-- Go `strconv.Itoa`: how `json.Marshal` writes an `int32`. -/
def intChars (i : Int) : List Char :=
  if i < 0 then '-' :: natChars i.natAbs else natChars i.toNat

/-- The maximal run of decimal digits at the head of the input, and the rest. -/
def readDigits : List Char → List Char × List Char
  | [] => ([], [])
  | c :: cs =>
    if (digitValue c).isSome then (c :: (readDigits cs).1, (readDigits cs).2)
    else ([], c :: cs)

/-- Whether the input goes on with a fraction or an exponent. -/
def startsFraction : List Char → Bool
  | [] => false
  | c :: _ => c == '.' || c == 'e' || c == 'E'

/-- Reads an integer literal: an optional `-`, then `0` or a run of digits
not starting with `0`. A literal with a fraction or an exponent is outside
this model and is refused. -/
def readNumber (cs : List Char) : Option (List Char × List Char) :=
  let body := match cs with
    | [] => []
    | c :: r => if c = '-' then r else c :: r
  let sign : List Char := match cs with
    | [] => []
    | c :: _ => if c = '-' then ['-'] else []
  match readDigits body with
  | ([], _) => none
  | (d :: ds, rest) =>
    if d = '0' ∧ ds ≠ [] then none
    else if startsFraction rest then none
    else some (sign ++ d :: ds, rest)

/-- The integer an integer literal writes. -/
def literalValue (lit : List Char) : Int :=
  match lit with
  | [] => 0
  | c :: r =>
    if c = '-' then -(((digitsValue r 0).getD 0 : Nat) : Int)
    else (((digitsValue (c :: r) 0).getD 0 : Nat) : Int)

/-- The member values of the JSON objects of this model: strings, integer
literals, booleans and `null`. -/
inductive JsonValue where
  | str (s : List Char)
  | num (lit : List Char)
  | bool (b : Bool)
  | null
  deriving DecidableEq, Repr

/-- Reads one member value. -/
def readValue : List Char → Option (JsonValue × List Char)
  | [] => none
  | c :: cs =>
    if c = '"' then
      match readString cs with
      | none => none
      | some (s, r) => some (.str s, r)
    else if c = 't' then
      match cs with
      | 'r' :: 'u' :: 'e' :: r => some (.bool true, r)
      | _ => none
    else if c = 'f' then
      match cs with
      | 'a' :: 'l' :: 's' :: 'e' :: r => some (.bool false, r)
      | _ => none
    else if c = 'n' then
      match cs with
      | 'u' :: 'l' :: 'l' :: r => some (.null, r)
      | _ => none
    else
      match readNumber (c :: cs) with
      | none => none
      | some (lit, r) => some (.num lit, r)

/-- Puts a member in front of the members read after it. -/
def consMember (m : List Char × JsonValue) :
    Option (List (List Char × JsonValue) × List Char) →
      Option (List (List Char × JsonValue) × List Char)
  | none => none
  | some (ms, r) => some (m :: ms, r)

/-- Reads the members of an object from the first key up to and including the
closing brace; `fuel` bounds the number of members. -/
def readMembers : Nat → List Char → Option (List (List Char × JsonValue) × List Char)
  | 0, _ => none
  | fuel + 1, cs =>
    match cs with
    | [] => none
    | q :: cs1 =>
      if q ≠ '"' then none
      else
        match readString cs1 with
        | none => none
        | some (key, r1) =>
          match skipWs r1 with
          | [] => none
          | colon :: r2 =>
            if colon ≠ ':' then none
            else
              match readValue (skipWs r2) with
              | none => none
              | some (v, r3) =>
                match skipWs r3 with
                | [] => none
                | sep :: r4 =>
                  if sep = '}' then some ([(key, v)], r4)
                  else if sep = ',' then consMember (key, v) (readMembers fuel (skipWs r4))
                  else none

/-- ASCII lower case, for the case-insensitive match of a key with a field. -/
def asciiLower (c : Char) : Char :=
  if 65 ≤ c.toNat ∧ c.toNat ≤ 90 then Char.ofNat (c.toNat + 32) else c

/-- The message of a `json.UnmarshalTypeError` for a struct field. -/
def typeError (value field type : String) : GoError :=
  .text ("json: cannot unmarshal " ++ value ++
    " into Go struct field elasticsearchTopologyElement." ++ field ++ " of type " ++ type)

/-- The name `encoding/json` gives the kind of a value in its errors. -/
def JsonValue.kind : JsonValue → String
  | .str _ => "string"
  | .num _ => "number"
  | .bool _ => "bool"
  | .null => "null"

/-- The decoder's state: the struct being filled and the first type error
saved so far. -/
structure DecodeState where
  element : elasticsearchTopologyElement
  saved : Option GoError
  deriving DecidableEq, Repr

/-- Saves a type error unless one is saved already. -/
def DecodeState.save (st : DecodeState) (e : GoError) : DecodeState :=
  match st.saved with
  | some _ => st
  | none => { st with saved := some e }

/-- Decodes one member into the struct: the key selects the field by its
`json` tag, case-insensitively; an unknown key is ignored; `null` leaves the
field as it is; a value of the wrong kind, or an integer outside `int32`,
saves a type error and decoding goes on. -/
def decodeMember (st : DecodeState) (m : List Char × JsonValue) : DecodeState :=
  let key := String.mk (m.1.map asciiLower)
  if key = "node_type" then
    match m.2 with
    | .str s => { st with element := { st.element with NodeType := String.mk s } }
    | .null => st
    | v => st.save (typeError v.kind "node_type" "string")
  else if key = "size" then
    match m.2 with
    | .str s => { st with element := { st.element with Size := String.mk s } }
    | .null => st
    | v => st.save (typeError v.kind "size" "string")
  else if key = "zone_count" then
    match m.2 with
    | .num lit =>
      let v := literalValue lit
      if -2147483648 ≤ v ∧ v ≤ 2147483647 then
        { st with element := { st.element with ZoneCount := v } }
      else st.save (typeError ("number " ++ String.mk lit) "zone_count" "int32")
    | .null => st
    | v => st.save (typeError v.kind "zone_count" "int32")
  else st

/-- Decodes the members in document order and reports the first saved type
error, if any. -/
def decodeMembers (ms : List (List Char × JsonValue)) :
    Except GoError elasticsearchTopologyElement :=
  let st := ms.foldl decodeMember
    { element := { NodeType := "", Size := "", ZoneCount := 0 }, saved := none }
  match st.saved with
  | some e => .error e
  | none => .ok st.element

/-- The error standing for every syntax error of `encoding/json`; the texts
and offsets of its syntax errors are not modelled. -/
def syntaxError : GoError :=
  .text "json: syntax error"

/-- A model of `json.Unmarshal` of the Go standard library (which is not part
of this repository) into the struct `elasticsearchTopologyElement` of
create.go under its `json` tags. The documents covered are one object whose
member values are strings, integer literals, booleans or `null` (what the
fragments of the flag are), or one such value alone; anything else is
reported as a syntax error. A value of the wrong kind for its field is a type
error, as `encoding/json` documents. -/
def jsonUnmarshal (data : String) : Except GoError elasticsearchTopologyElement :=
  match skipWs data.toList with
  | [] => .error syntaxError
  | c :: cs =>
    if c = '{' then
      match skipWs cs with
      | [] => .error syntaxError
      | d :: ds =>
        if d = '}' then
          if skipWs ds = [] then .ok { NodeType := "", Size := "", ZoneCount := 0 }
          else .error syntaxError
        else
          match readMembers (d :: ds).length (d :: ds) with
          | none => .error syntaxError
          | some (ms, rest) =>
            if skipWs rest = [] then decodeMembers ms else .error syntaxError
    else
      match readValue (c :: cs) with
      | none => .error syntaxError
      | some (v, rest) =>
        if skipWs rest = [] then
          match v with
          | .null => .ok { NodeType := "", Size := "", ZoneCount := 0 }
          | v => .error (.text ("json: cannot unmarshal " ++ v.kind ++
              " into Go value of type cmddeployment.elasticsearchTopologyElement"))
        else .error syntaxError

/-- Modelled from the spec: the re-encoding of section 4.2, `json.Marshal` on
a `depresourceapi.ElasticsearchTopologyElement`, whose declaration with its
`json` tags is not part of this repository: a JSON object with `node_type`,
then `zone_count`, left out when it is zero, then `size` as an integer count
of megabytes. -/
def jsonMarshal (e : ElasticsearchTopologyElement) : Except GoError String :=
  .ok (String.mk
    ("\x7b\"node_type\":\"".toList ++ escapeString e.NodeType.toList ++ ['"'] ++
      (if e.ZoneCount = 0 then [] else ",\"zone_count\":".toList ++ intChars e.ZoneCount) ++
      ",\"size\":".toList ++ intChars e.Size ++ ['}']))

/-- The error of `encoding/json` for a JSON number met where the struct has the
string field `size`. -/
def sizeTypeError : GoError :=
  .text "json: cannot unmarshal number into Go struct field elasticsearchTopologyElement.size of type string"

/-- One concrete choice of collaborators over string payloads and responses:
the size parser and JSON codec above, a definition file `payload.json` that
decodes to a payload and a file `null.json` that decodes to `nil`, a payload
builder that always succeeds, and a create endpoint that knows the request
identifier `R1` only. -/
def sampleCollaborators : Collaborators String String where
  decodeDefinition := fun file =>
    if file = "payload.json" then .ok (some "payload of payload.json")
    else if file = "null.json" then .ok none
    else .error (.text "open: no such file or directory")
  parseGb := sizeParser
  jsonUnmarshal := jsonUnmarshal
  jsonMarshal := jsonMarshal
  newPayload := fun params => .ok (some ("payload from template " ++ params.DeploymentTemplateID))
  format := fun _ => .ok ()
  requestID := fun flag => if flag = "" then "generated-request-id" else flag
  create := fun params =>
    if params.RequestID = "R1" then .ok "deployment-1" else .error (.text "api error")
  responseID := fun res => res
  track := fun _ => .ok ()

/-! ## Sample inputs -/

/-- The fragment `-e` of scenario S3 for the data tier. -/
def dataFragment : String :=
  "\x7b\"node_type\":\"data\",\"size\":\"8g\",\"zone_count\":2\x7d"

/-- The fragment `-e` of scenario S3 for the master tier. -/
def masterFragment : String :=
  "\x7b\"node_type\":\"master\",\"size\":\"1g\"\x7d"

/-- The data fragment of S3 after normalization. -/
def dataNormalized : String :=
  "\x7b\"node_type\":\"data\",\"zone_count\":2,\"size\":8192\x7d"

/-- The master fragment of S3 after normalization. -/
def masterNormalized : String :=
  "\x7b\"node_type\":\"master\",\"size\":1024\x7d"

/-- A fragment without a size. -/
def sizelessFragment : String :=
  "\x7b\"node_type\":\"ml\",\"zone_count\":1\x7d"

/-- The flags of scenario S6: `--file payload.json --apm`, resubmitted under
the request identifier `R1`. -/
def fileFlags : Flags :=
  { defaultFlags with file := "payload.json", apmEnable := true, requestID := "R1" }

/-- The flags of scenario S4: `--generate-payload --apm`. -/
def generateFlags : Flags :=
  { defaultFlags with generatePayload := true, apmEnable := true }

/-- The builder parameters that the default flags give in region `us-east-1`. -/
def defaultParams : NewPayloadParams :=
  newPayloadParams "us-east-1" defaultFlags "aws-io-optimized-v2" 512 2048 4096 4096 1024 none

/-! # Properties -/

/-! ## Template defaulter -/

theorem hasPrefixChars_iff (s sub : List Char) :
    hasPrefixChars s sub = true ↔ ∃ post, s = sub ++ post := by
  induction s generalizing sub with
  | nil => cases sub <;> simp [hasPrefixChars]
  | cons c cs ih =>
    cases sub with
    | nil => simp [hasPrefixChars]
    | cons p ps =>
      simp only [hasPrefixChars, Bool.and_eq_true, beq_iff_eq, ih, List.cons_append,
        List.cons.injEq]
      constructor
      · rintro ⟨h, post, hp⟩
        exact ⟨post, h, hp⟩
      · rintro ⟨post, h, hp⟩
        exact ⟨h, post, hp⟩

/-- The test `stringsContains` is the substring relation: `s` contains `sub`
exactly when `s` is some text, then `sub`, then some text. -/
theorem containsChars_iff (s sub : List Char) :
    containsChars s sub = true ↔ ∃ pre post, s = pre ++ sub ++ post := by
  induction s with
  | nil =>
    simp only [containsChars, hasPrefixChars_iff]
    constructor
    · rintro ⟨post, h⟩
      exact ⟨[], post, by simpa using h⟩
    · rintro ⟨pre, post, h⟩
      have h' : sub = [] := by
        cases sub with
        | nil => rfl
        | cons a as => cases pre <;> simp at h
      exact ⟨[], by simp [h']⟩
  | cons c cs ih =>
    simp only [containsChars, Bool.or_eq_true, hasPrefixChars_iff, ih]
    constructor
    · rintro (⟨post, h⟩ | ⟨pre, post, h⟩)
      · exact ⟨[], post, by simpa using h⟩
      · exact ⟨c :: pre, post, by simp [h]⟩
    · rintro ⟨pre, post, h⟩
      cases pre with
      | nil => exact Or.inl ⟨post, by simpa using h⟩
      | cons d pre =>
        simp only [List.cons_append, List.cons.injEq] at h
        exact Or.inr ⟨pre, post, by simpa using h.2⟩

theorem stringsContains_self_azure : stringsContains "azure" "azure" = true := by decide

theorem stringsContains_self_gcp : stringsContains "gcp" "gcp" = true := by decide

theorem stringsContains_azure_gcp : stringsContains "azure" "gcp" = false := by decide

theorem setDefaultTemplate_eq (r : String) :
    setDefaultTemplate r =
      (if stringsContains r "azure" then "azure-io-optimized"
       else if stringsContains r "gcp" then "gcp-io-optimized"
       else if r = "ece-region" then "default"
       else "aws-io-optimized-v2") := by
  unfold setDefaultTemplate
  by_cases ha : stringsContains r "azure" = true
  · simp [ha, stringsContains_azure_gcp]
  · by_cases hg : stringsContains r "gcp" = true
    · simp [ha, hg]
    · have h1 : r ≠ "azure" := fun h => ha (h ▸ stringsContains_self_azure)
      have h2 : r ≠ "gcp" := fun h => hg (h ▸ stringsContains_self_gcp)
      simp [ha, hg, h1, h2]

theorem setDefaultTemplate_values (r : String) :
    setDefaultTemplate r = "azure-io-optimized" ∨ setDefaultTemplate r = "gcp-io-optimized" ∨
      setDefaultTemplate r = "default" ∨ setDefaultTemplate r = "aws-io-optimized-v2" := by
  rw [setDefaultTemplate_eq]
  split_ifs <;> simp

theorem setDefaultTemplate_ne_empty (r : String) : setDefaultTemplate r ≠ "" := by
  rcases setDefaultTemplate_values r with h | h | h | h <;> rw [h] <;> decide

/-- C1: for every region, `setDefaultTemplate` is `azure-io-optimized` when the
region contains `azure` (also when it contains `gcp` as well), otherwise
`gcp-io-optimized` when it contains `gcp`, otherwise `default` when it is
exactly `ece-region`, otherwise `aws-io-optimized-v2`; the five regions of the
table map as the specification lists them. -/
theorem C1_setDefaultTemplate (r : String) :
    setDefaultTemplate r =
        (if stringsContains r "azure" then "azure-io-optimized"
         else if stringsContains r "gcp" then "gcp-io-optimized"
         else if r = "ece-region" then "default"
         else "aws-io-optimized-v2")
      ∧ setDefaultTemplate "gcp-azure-1" = "azure-io-optimized"
      ∧ setDefaultTemplate "azure-gcp-1" = "azure-io-optimized"
      ∧ setDefaultTemplate "us-east-1" = "aws-io-optimized-v2"
      ∧ setDefaultTemplate "azure-eastus" = "azure-io-optimized"
      ∧ setDefaultTemplate "gcp-us-central1" = "gcp-io-optimized"
      ∧ setDefaultTemplate "ece-region" = "default"
      ∧ setDefaultTemplate "unknown" = "aws-io-optimized-v2" :=
  ⟨setDefaultTemplate_eq r, by decide, by decide, by decide, by decide, by decide, by decide,
    by decide⟩

/-! ## Topology codec -/

section CodecProps

variable {Payload Response : Type}

theorem normalizeStep_eq_ok_iff (c : Collaborators Payload Response) (x s : String) :
    normalizeStep c x = .ok s ↔
      ∃ element mb, c.jsonUnmarshal x = .ok element ∧ element.Size ≠ "" ∧
        c.parseGb element.Size = .ok mb ∧
        c.jsonMarshal { NodeType := element.NodeType,
                        ZoneCount := element.ZoneCount,
                        Size := mb } = .ok s := by
  unfold normalizeStep
  cases hu : c.jsonUnmarshal x with
  | error err => simp
  | ok element =>
    by_cases hs : element.Size = ""
    · simp [hs]
    · cases hp : c.parseGb element.Size with
      | error err => simp [hs, hp]
      | ok mb =>
        cases hm : c.jsonMarshal ⟨element.NodeType, element.ZoneCount, mb⟩ with
        | error err => simp [hs, hp, hm]
        | ok b => simp [hs, hp, hm]

/-- The loop, one element unfolded, in terms of the per-element step. -/
theorem esTopologyLoop_cons_result (c : Collaborators Payload Response) (x : String)
    (rest t : List String) :
    (esTopologyLoop c (x :: rest) t).2 =
      match normalizeStep c x with
      | .error e => .error e
      | .ok s => (esTopologyLoop c rest (t ++ [s])).2 := by
  simp only [esTopologyLoop, normalizeStep]
  cases hu : c.jsonUnmarshal x with
  | error err => simp
  | ok element =>
    by_cases hs : element.Size = ""
    · simp [hs]
    · cases hp : c.parseGb element.Size with
      | error err => simp [hs, hp]
      | ok mb =>
        cases hm : c.jsonMarshal ⟨element.NodeType, element.ZoneCount, mb⟩ with
        | error err => simp [hs, hp, hm]
        | ok b => simp [hs, hp, hm]

theorem esTopologyLoop_result (c : Collaborators Payload Response) (xs t : List String) :
    (esTopologyLoop c xs t).2 =
      match traverseFailFast (normalizeStep c) xs with
      | .error e => .error e
      | .ok ys => .ok (t ++ ys) := by
  induction xs generalizing t with
  | nil => simp [esTopologyLoop, traverseFailFast]
  | cons x rest ih =>
    rw [esTopologyLoop_cons_result]
    simp only [traverseFailFast]
    cases hx : normalizeStep c x with
    | error e => simp
    | ok s =>
      simp only [ih]
      cases hr : traverseFailFast (normalizeStep c) rest with
      | error e => simp
      | ok ys => simp

theorem esTopologyParseGB_result (c : Collaborators Payload Response) (xs : List String) :
    (esTopologyParseGB c xs).2 = traverseFailFast (normalizeStep c) xs := by
  unfold esTopologyParseGB
  rw [esTopologyLoop_result]
  cases traverseFailFast (normalizeStep c) xs <;> simp

theorem traverseFailFast_ok_iff (step : String → Except GoError String) (xs ys : List String) :
    traverseFailFast step xs = .ok ys ↔ List.Forall₂ (fun x y => step x = .ok y) xs ys := by
  induction xs generalizing ys with
  | nil =>
    simp only [traverseFailFast, Except.ok.injEq]
    constructor
    · rintro rfl
      exact List.Forall₂.nil
    · intro h
      cases h
      rfl
  | cons x rest ih =>
    simp only [traverseFailFast]
    constructor
    · intro h
      cases hx : step x with
      | error e => simp [hx] at h
      | ok y =>
        cases hr : traverseFailFast step rest with
        | error e => simp [hx, hr] at h
        | ok zs =>
          simp only [hx, hr, Except.ok.injEq] at h
          subst h
          exact List.Forall₂.cons hx ((ih zs).1 hr)
    · intro h
      cases h with
      | cons hx hrest =>
        rw [hx]
        simp [(ih _).2 hrest]

theorem traverseFailFast_first_error (step : String → Except GoError String)
    (pre : List String) (x : String) (post : List String) (e : GoError)
    (hpre : ∀ y ∈ pre, ∃ s, step y = .ok s) (hx : step x = .error e) :
    traverseFailFast step (pre ++ x :: post) = .error e := by
  induction pre with
  | nil => simp [traverseFailFast, hx]
  | cons y pre ih =>
    obtain ⟨s, hs⟩ := hpre y (List.mem_cons_self _ _)
    have ih' := ih (fun z hz => hpre z (List.mem_cons_of_mem _ hz))
    simp [traverseFailFast, hs, ih']

theorem traverseFailFast_all_ok (step : String → Except GoError String) (xs : List String)
    (h : ∀ y ∈ xs, ∃ s, step y = .ok s) : ∃ ys, traverseFailFast step xs = .ok ys := by
  induction xs with
  | nil => exact ⟨[], rfl⟩
  | cons y rest ih =>
    obtain ⟨s, hs⟩ := h y (List.mem_cons_self _ _)
    obtain ⟨ys, hys⟩ := ih (fun z hz => h z (List.mem_cons_of_mem _ hz))
    exact ⟨s :: ys, by simp [traverseFailFast, hs, hys]⟩

/-- C2: `esTopologyParseGB` is the fail-fast element-wise traversal of the
per-element step (decode, reject an empty size, parse the size, re-encode): it
succeeds with `out` exactly when `out` lists, in input order and with the same
length, the re-encoding of each input element; and when the elements before
some element all succeed and that element's step fails, the result is that
element's error and no list. -/
theorem C2_esTopologyParseGB_traversal (c : Collaborators Payload Response)
    (topology : List String) :
    (esTopologyParseGB c topology).2 = traverseFailFast (normalizeStep c) topology
      ∧ (∀ out, (esTopologyParseGB c topology).2 = .ok out ↔
          List.Forall₂ (fun x y => normalizeStep c x = .ok y) topology out)
      ∧ (∀ out, (esTopologyParseGB c topology).2 = .ok out → out.length = topology.length)
      ∧ ((∀ x ∈ topology, ∃ s, normalizeStep c x = .ok s) →
          ∃ out, (esTopologyParseGB c topology).2 = .ok out)
      ∧ (∀ pre x post e, topology = pre ++ x :: post →
          (∀ y ∈ pre, ∃ s, normalizeStep c y = .ok s) → normalizeStep c x = .error e →
          (esTopologyParseGB c topology).2 = .error e) := by
  refine ⟨esTopologyParseGB_result c topology, ?_, ?_, ?_, ?_⟩
  · intro out
    rw [esTopologyParseGB_result, traverseFailFast_ok_iff]
  · intro out h
    rw [esTopologyParseGB_result, traverseFailFast_ok_iff] at h
    exact h.length_eq.symm
  · intro h
    rw [esTopologyParseGB_result]
    exact traverseFailFast_all_ok _ _ h
  · intro pre x post e htop hpre hx
    rw [esTopologyParseGB_result, htop]
    exact traverseFailFast_first_error _ pre x post e hpre hx

theorem parseGbCalls_append (a b : List (Event Payload Response)) :
    parseGbCalls (a ++ b) = parseGbCalls a ++ parseGbCalls b := by
  induction a with
  | nil => rfl
  | cons ev a ih => cases ev <;> simp [parseGbCalls, ih]

/-- The Size Parser is never called on the empty string by the loop. -/
theorem esTopologyLoop_no_empty_parse (c : Collaborators Payload Response)
    (xs t : List String) : "" ∉ parseGbCalls (esTopologyLoop c xs t).1 := by
  induction xs generalizing t with
  | nil => simp [esTopologyLoop, parseGbCalls]
  | cons x rest ih =>
    simp only [esTopologyLoop]
    cases hu : c.jsonUnmarshal x with
    | error err => simp [parseGbCalls]
    | ok element =>
      by_cases hs : element.Size = ""
      · simp [hs, parseGbCalls]
      · have hs' : ¬ "" = element.Size := fun h => hs h.symm
        cases hp : c.parseGb element.Size with
        | error err => simp [hs, hp, parseGbCalls, hs']
        | ok mb =>
          cases hm : c.jsonMarshal ⟨element.NodeType, element.ZoneCount, mb⟩ with
          | error err => simp [hs, hp, hm, parseGbCalls, hs']
          | ok b =>
            have := ih (t ++ [b])
            simp [hs, hp, hm, parseGbCalls, hs', this]

/-- A prefix whose elements all normalize is passed through by the loop: its
events come first, one Size Parser call for each element, and the loop goes on
with the rest of the input. -/
theorem esTopologyLoop_append (c : Collaborators Payload Response) (pre rest : List String)
    (hpre : ∀ y ∈ pre, ∃ s, normalizeStep c y = .ok s) (t : List String) :
    ∃ ys, esTopologyLoop c (pre ++ rest) t =
        ((esTopologyLoop c pre t).1 ++ (esTopologyLoop c rest (t ++ ys)).1,
          (esTopologyLoop c rest (t ++ ys)).2)
      ∧ (parseGbCalls (esTopologyLoop c pre t).1).length = pre.length := by
  induction pre generalizing t with
  | nil => exact ⟨[], by simp [esTopologyLoop, parseGbCalls]⟩
  | cons y pre ih =>
    obtain ⟨s, hs⟩ := hpre y (List.mem_cons_self _ _)
    obtain ⟨element, mb, hu, hne, hp, hm⟩ := (normalizeStep_eq_ok_iff c y s).1 hs
    obtain ⟨ys, h1, h2⟩ := ih (fun z hz => hpre z (List.mem_cons_of_mem _ hz)) (t ++ [s])
    refine ⟨s :: ys, ?_, ?_⟩
    · simp [esTopologyLoop, hu, hne, hp, hm, h1]
    · simp [esTopologyLoop, hu, hne, hp, hm, parseGbCalls, h2]

/-- C3: when the elements before some element all normalize and that element
decodes to an object whose size is missing or empty, `esTopologyParseGB` fails
with the error "elasticsearch node topology: memory size cannot be empty",
that is the message "memory size cannot be empty" under the prefix of the
function; the call ends right after decoding that element, the Size Parser
has been called once for each earlier element and never on the empty size. -/
theorem C3_empty_size_rejected (c : Collaborators Payload Response)
    (pre : List String) (x : String) (post : List String)
    (element : elasticsearchTopologyElement)
    (hpre : ∀ y ∈ pre, ∃ s, normalizeStep c y = .ok s)
    (hdec : c.jsonUnmarshal x = .ok element) (hsize : element.Size = "") :
    (esTopologyParseGB c (pre ++ x :: post)).2 =
        .error (.text "elasticsearch node topology: memory size cannot be empty")
      ∧ (esTopologyParseGB c (pre ++ x :: post)).2 =
          .error (.text ("elasticsearch node topology: " ++ "memory size cannot be empty"))
      ∧ (esTopologyParseGB c (pre ++ x :: post)).1 =
          (esTopologyParseGB c pre).1 ++ [.jsonUnmarshal x]
      ∧ (parseGbCalls (esTopologyParseGB c (pre ++ x :: post)).1).length = pre.length
      ∧ element.Size ∉ parseGbCalls (esTopologyParseGB c (pre ++ x :: post)).1 := by
  obtain ⟨ys, h1, h2⟩ := esTopologyLoop_append c pre (x :: post) hpre []
  have hx : ∀ t, esTopologyLoop c (x :: post) t =
      ([.jsonUnmarshal x],
        .error (.text "elasticsearch node topology: memory size cannot be empty")) := by
    intro t
    simp [esTopologyLoop, hdec, hsize]
  have hres : (esTopologyParseGB c (pre ++ x :: post)).2 =
      .error (.text "elasticsearch node topology: memory size cannot be empty") := by
    simp [esTopologyParseGB, h1, hx]
  refine ⟨hres, hres, ?_, ?_, ?_⟩
  · simp [esTopologyParseGB, h1, hx]
  · have h2' : (parseGbCalls (esTopologyLoop c pre ([] : List String)).1).length = pre.length := h2
    simp [esTopologyParseGB, h1, hx, parseGbCalls_append, parseGbCalls, h2']
  · rw [hsize]
    exact esTopologyLoop_no_empty_parse c _ _

/-- C3 at a concrete input: the data fragment of S3 followed by a fragment
without a size. -/
theorem C3_empty_size_rejected_witness :
    (esTopologyParseGB sampleCollaborators ([dataFragment] ++ sizelessFragment :: [masterFragment])).2 =
        .error (.text "elasticsearch node topology: memory size cannot be empty")
      ∧ (esTopologyParseGB sampleCollaborators
            ([dataFragment] ++ sizelessFragment :: [masterFragment])).1 =
          (esTopologyParseGB sampleCollaborators [dataFragment]).1 ++
            [.jsonUnmarshal sizelessFragment]
      ∧ (parseGbCalls (esTopologyParseGB sampleCollaborators
            ([dataFragment] ++ sizelessFragment :: [masterFragment])).1).length = 1
      ∧ "" ∉ parseGbCalls (esTopologyParseGB sampleCollaborators
            ([dataFragment] ++ sizelessFragment :: [masterFragment])).1 :=
  have h := C3_empty_size_rejected sampleCollaborators [dataFragment] sizelessFragment
    [masterFragment] { NodeType := "ml", Size := "", ZoneCount := 1 }
    (by
      intro y hy
      rw [List.mem_singleton] at hy
      subst hy
      exact ⟨_, rfl⟩)
    rfl rfl
  ⟨h.1, h.2.2.1, h.2.2.2.1, h.2.2.2.2⟩

end CodecProps

/-! ## The command -/

section CommandProps

variable {Payload Response : Type}

theorem andThen_mem {α β : Type} (x : Run Payload Response α) (k : α → Run Payload Response β)
    (ev : Event Payload Response) :
    ev ∈ (x.andThen k).1 ↔ ev ∈ x.1 ∨ ∃ a, x.2 = .ok a ∧ ev ∈ (k a).1 := by
  rcases x with ⟨tr, e | a⟩ <;> simp [Run.andThen]

theorem andThen_of_ok {α β : Type} (x : Run Payload Response α) (k : α → Run Payload Response β)
    (tr : List (Event Payload Response)) (a : α) (h : x = (tr, .ok a)) :
    x.andThen k = (tr ++ (k a).1, (k a).2) := by
  subst h
  rfl

theorem esTopologyLoop_isCodec (c : Collaborators Payload Response) (xs t : List String) :
    ∀ ev ∈ (esTopologyLoop c xs t).1, ev.isCodec = true := by
  induction xs generalizing t with
  | nil => simp [esTopologyLoop]
  | cons x rest ih =>
    simp only [esTopologyLoop]
    cases hu : c.jsonUnmarshal x with
    | error err => simp [Event.isCodec]
    | ok element =>
      by_cases hs : element.Size = ""
      · simp [hs, Event.isCodec]
      · cases hp : c.parseGb element.Size with
        | error err => simp [hs, hp, Event.isCodec]
        | ok mb =>
          cases hm : c.jsonMarshal ⟨element.NodeType, element.ZoneCount, mb⟩ with
          | error err => simp [hs, hp, hm, Event.isCodec]
          | ok b =>
            have := ih (t ++ [b])
            simp [hs, hp, hm, Event.isCodec]
            exact this

theorem decodeFile_trace (c : Collaborators Payload Response) (f : Flags) :
    (decodeFile c f).1 = if f.file = "" then [] else [.decodeDefinition f.file] := by
  unfold decodeFile
  by_cases h : f.file = ""
  · simp [h]
  · cases hd : c.decodeDefinition f.file <;> simp [h]

theorem normalizeTopology_isCodec (c : Collaborators Payload Response) (f : Flags) :
    ∀ ev ∈ (normalizeTopology c f).1, ev.isCodec = true := by
  unfold normalizeTopology
  cases f.topologyElements with
  | none => simp
  | some topology =>
    intro ev hev
    simp only [List.mem_cons] at hev
    rcases hev with rfl | hev
    · rfl
    · exact esTopologyLoop_isCodec c topology [] ev hev

theorem isCodec_isAssembly (ev : Event Payload Response) (h : ev.isCodec = true) :
    ev.isAssembly = true := by
  cases ev <;> simp_all [Event.isCodec, Event.isAssembly]

/-- Every event of the assembly part is either the file decode, a Size Parser
call, an event of the topology normalization, or the one call of the payload
builder, made only when no payload was decoded and with the parameters built
from the flags, the template default and the parsed sizes. -/
theorem assemblePayload_mem (c : Collaborators Payload Response) (region : String) (f : Flags)
    (ev : Event Payload Response) (hev : ev ∈ (assemblePayload c region f).1) :
    ev ∈ (decodeFile c f).1 ∨ (∃ s ∈ sizeFlags f, ev = .parseGb s) ∨
      ev ∈ (normalizeTopology c f).1 ∨
      ∃ apm appsearch es ent kibana topology,
        (decodeFile c f).2 = .ok none ∧
        ev = .newPayload (newPayloadParams region f
          (if f.dt = "" then setDefaultTemplate region else f.dt)
          apm appsearch es ent kibana topology) := by
  simp only [assemblePayload, andThen_mem, Run.call, List.mem_singleton] at hev
  rcases hev with h | ⟨payload, h0, h | ⟨a, -, h | ⟨b, -, h | ⟨d, -, h | ⟨g, -, h | ⟨k, -, h | ⟨topo, -, h⟩⟩⟩⟩⟩⟩⟩
  · exact Or.inl h
  · exact Or.inr (Or.inl ⟨_, by simp [sizeFlags], h⟩)
  · exact Or.inr (Or.inl ⟨_, by simp [sizeFlags], h⟩)
  · exact Or.inr (Or.inl ⟨_, by simp [sizeFlags], h⟩)
  · exact Or.inr (Or.inl ⟨_, by simp [sizeFlags], h⟩)
  · exact Or.inr (Or.inl ⟨_, by simp [sizeFlags], h⟩)
  · exact Or.inr (Or.inr (Or.inl h))
  · cases payload with
    | some p => simp at h
    | none =>
      simp only [List.mem_singleton] at h
      exact Or.inr (Or.inr (Or.inr ⟨a, b, d, g, k, topo, h0, h⟩))

theorem assemblePayload_isAssembly (c : Collaborators Payload Response) (region : String)
    (f : Flags) : ∀ ev ∈ (assemblePayload c region f).1, ev.isAssembly = true := by
  intro ev hev
  rcases assemblePayload_mem c region f ev hev with h | ⟨s, -, rfl⟩ | h | ⟨_, _, _, _, _, _, -, rfl⟩
  · rw [decodeFile_trace] at h
    by_cases hf : f.file = ""
    · simp [hf] at h
    · simp only [hf, if_false, List.mem_singleton] at h
      subst h
      rfl
  · rfl
  · exact isCodec_isAssembly ev (normalizeTopology_isCodec c f ev h)
  · rfl

theorem submitted_append (a b : List (Event Payload Response)) :
    submitted (a ++ b) = submitted a ++ submitted b := by
  induction a with
  | nil => rfl
  | cons ev a ih => cases ev <;> simp [submitted, ih]

theorem stderrText_append (a b : List (Event Payload Response)) :
    stderrText (a ++ b) = stderrText a ++ stderrText b := by
  induction a with
  | nil => rfl
  | cons ev a ih => cases ev <;> simp [stderrText, ih]

theorem createCalls_append (a b : List (Event Payload Response)) :
    createCalls (a ++ b) = createCalls a ++ createCalls b := by
  induction a with
  | nil => rfl
  | cons ev a ih => cases ev <;> simp [createCalls, ih]

/-- Events of the assembly part hand over no payload, write nothing to the
error stream and are no create call. -/
theorem isAssembly_silent (tr : List (Event Payload Response))
    (h : ∀ ev ∈ tr, ev.isAssembly = true) :
    submitted tr = [] ∧ stderrText tr = [] ∧ createCalls tr = [] := by
  induction tr with
  | nil => exact ⟨rfl, rfl, rfl⟩
  | cons ev tr ih =>
    obtain ⟨h1, h2, h3⟩ := ih (fun e he => h e (List.mem_cons_of_mem _ he))
    have hev := h ev (List.mem_cons_self _ _)
    cases ev <;> simp_all [Event.isAssembly, submitted, stderrText, createCalls]

theorem coordinate_not_isAssembly (c : Collaborators Payload Response) (f : Flags)
    (q : Option Payload) : ∀ ev ∈ (coordinate c f q).1, ev.isAssembly = false := by
  unfold coordinate
  by_cases hg : f.generatePayload = true
  · simp [hg, Run.call, Event.isAssembly]
  · cases hc : c.create ⟨c.requestID f.requestID, q⟩ <;>
      simp [hg, hc, Event.isAssembly]

theorem submitted_coordinate (c : Collaborators Payload Response) (f : Flags)
    (q : Option Payload) : submitted (coordinate c f q).1 = [q] := by
  unfold coordinate
  by_cases hg : f.generatePayload = true
  · simp [hg, Run.call, submitted]
  · cases hc : c.create ⟨c.requestID f.requestID, q⟩ <;>
      simp [hg, hc, submitted]

/-- The payloads a run hands over: the one payload that reaches the request
coordinator, or none when the assembly part fails. -/
theorem submitted_RunE (c : Collaborators Payload Response) (region : String) (f : Flags) :
    submitted (RunE c region f).1 =
      match (assemblePayload c region f).2 with
      | .ok q => [q]
      | .error _ => [] := by
  have hsil := (isAssembly_silent _ (assemblePayload_isAssembly c region f)).1
  unfold RunE
  rcases h : assemblePayload c region f with ⟨tr, e | q⟩
  · rw [h] at hsil
    simpa [Run.andThen] using hsil
  · rw [h] at hsil
    simp only [Run.andThen, submitted_append, submitted_coordinate]
    simpa using hsil

/-- A payload-builder call of a run is made only when no payload was decoded
from a file, with the parameters built from the flags. -/
theorem RunE_newPayload (c : Collaborators Payload Response) (region : String) (f : Flags)
    (params : NewPayloadParams) (h : Event.newPayload params ∈ (RunE c region f).1) :
    ∃ apm appsearch es ent kibana topology,
      (decodeFile c f).2 = .ok none ∧
      params = newPayloadParams region f
        (if f.dt = "" then setDefaultTemplate region else f.dt)
        apm appsearch es ent kibana topology := by
  unfold RunE at h
  rw [andThen_mem] at h
  rcases h with h | ⟨q, -, h⟩
  · rcases assemblePayload_mem c region f _ h with h | ⟨s, -, h⟩ | h | ⟨a, b, d, g, k, t, h0, h⟩
    · rw [decodeFile_trace] at h
      by_cases hf : f.file = "" <;> simp [hf] at h
    · simp at h
    · have := normalizeTopology_isCodec c f _ h
      simp [Event.isCodec] at this
    · exact ⟨a, b, d, g, k, t, h0, by simpa using h⟩
  · have := coordinate_not_isAssembly c f q _ h
    simp [Event.isAssembly] at this

/-- C8: the `DeploymentTemplateID` of every call of the payload builder is the
`--deployment-template` value when that is not empty and otherwise
`setDefaultTemplate(region)`; it is never empty, `setDefaultTemplate` returning
one of four non-empty identifiers for every region, the empty one included. -/
theorem C8_template_id_non_empty (c : Collaborators Payload Response) (region : String)
    (f : Flags) (params : NewPayloadParams)
    (h : Event.newPayload params ∈ (RunE c region f).1) :
    params.DeploymentTemplateID = (if f.dt = "" then setDefaultTemplate region else f.dt)
      ∧ params.DeploymentTemplateID ≠ ""
      ∧ (setDefaultTemplate region = "azure-io-optimized" ∨
          setDefaultTemplate region = "gcp-io-optimized" ∨
          setDefaultTemplate region = "default" ∨
          setDefaultTemplate region = "aws-io-optimized-v2")
      ∧ setDefaultTemplate "" = "aws-io-optimized-v2" := by
  obtain ⟨a, b, d, g, k, t, -, rfl⟩ := RunE_newPayload c region f params h
  refine ⟨rfl, ?_, setDefaultTemplate_values region, by decide⟩
  simp only [newPayloadParams]
  by_cases hdt : f.dt = ""
  · simpa [hdt] using setDefaultTemplate_ne_empty region
  · simp [hdt]

/-- C9 (as the code has it): every instance spec of a call of the payload
builder carries, unchecked, the zone count given by the matching flag
(`--es-zones`, `--kibana-zones`, `--apm-zones`, `--appsearch-zones`,
`--enterprise_search-zones`), so it is at least 1 exactly when the flag value
is; each of these flags defaults to 1. -/
theorem C9_zone_counts_are_the_flags (c : Collaborators Payload Response) (region : String)
    (f : Flags) (params : NewPayloadParams)
    (h : Event.newPayload params ∈ (RunE c region f).1) :
    params.ElasticsearchInstance.ZoneCount = f.esZoneCount
      ∧ params.KibanaInstance.ZoneCount = f.kibanaZoneCount
      ∧ params.ApmInstance.ZoneCount = f.apmZoneCount
      ∧ params.AppsearchInstance.ZoneCount = f.appsearchZoneCount
      ∧ params.EnterpriseSearchInstance.ZoneCount = f.enterpriseSearchZoneCount
      ∧ (1 ≤ params.ElasticsearchInstance.ZoneCount ↔ 1 ≤ f.esZoneCount)
      ∧ (1 ≤ params.KibanaInstance.ZoneCount ↔ 1 ≤ f.kibanaZoneCount)
      ∧ (1 ≤ params.ApmInstance.ZoneCount ↔ 1 ≤ f.apmZoneCount)
      ∧ (1 ≤ params.AppsearchInstance.ZoneCount ↔ 1 ≤ f.appsearchZoneCount)
      ∧ (1 ≤ params.EnterpriseSearchInstance.ZoneCount ↔ 1 ≤ f.enterpriseSearchZoneCount)
      ∧ defaultFlags.esZoneCount = 1 ∧ defaultFlags.kibanaZoneCount = 1
      ∧ defaultFlags.apmZoneCount = 1 ∧ defaultFlags.appsearchZoneCount = 1
      ∧ defaultFlags.enterpriseSearchZoneCount = 1 := by
  obtain ⟨a, b, d, g, k, t, -, rfl⟩ := RunE_newPayload c region f params h
  exact ⟨rfl, rfl, rfl, rfl, rfl, Iff.rfl, Iff.rfl, Iff.rfl, Iff.rfl, Iff.rfl,
    rfl, rfl, rfl, rfl, rfl⟩

theorem decodeFile_ok (c : Collaborators Payload Response) (f : Flags)
    (hfile : f.file = "" ∨ ∃ p, c.decodeDefinition f.file = .ok p) :
    ∃ q, decodeFile c f = ((decodeFile c f).1, .ok q) := by
  unfold decodeFile
  by_cases h : f.file = ""
  · exact ⟨none, by simp [h]⟩
  · rcases hfile with h' | ⟨p, hp⟩
    · exact absurd h' h
    · exact ⟨p, by simp [h, hp]⟩

/-- C10: when the file decode does not fail (no `--file`, or one that decodes)
and the Size Parser accepts the size flags before some flag, in the order apm,
appsearch, es, enterprise_search, kibana, and rejects that flag with `e`, the
command returns `e` itself; its events are the file decode, if any, and the
Size Parser calls up to the rejected one, so there is no topology
normalization, no payload build, no formatting, no request identifier, no
create call, no tracker call and nothing on the error stream. -/
theorem C10_size_error_returned (c : Collaborators Payload Response) (region : String)
    (f : Flags) (pre : List String) (s : String) (post : List String) (e : GoError)
    (hfile : f.file = "" ∨ ∃ p, c.decodeDefinition f.file = .ok p)
    (hsplit : sizeFlags f = pre ++ s :: post)
    (hpre : ∀ y ∈ pre, ∃ mb, c.parseGb y = .ok mb)
    (hs : c.parseGb s = .error e) :
    (RunE c region f).2 = .error e
      ∧ (RunE c region f).1 =
          (if f.file = "" then [] else [.decodeDefinition f.file]) ++
            (pre ++ [s]).map Event.parseGb
      ∧ (∀ ev ∈ (RunE c region f).1,
          (∃ file, ev = .decodeDefinition file) ∨ ∃ size, ev = .parseGb size)
      ∧ stderrText (RunE c region f).1 = []
      ∧ submitted (RunE c region f).1 = []
      ∧ createCalls (RunE c region f).1 = [] := by
  obtain ⟨q, hq⟩ := decodeFile_ok c f hfile
  have htr := decodeFile_trace c f
  have key : RunE c region f =
      ((if f.file = "" then [] else [.decodeDefinition f.file]) ++
        (pre ++ [s]).map Event.parseGb, .error e) := by
    rw [htr] at hq
    rcases pre with _ | ⟨p1, _ | ⟨p2, _ | ⟨p3, _ | ⟨p4, _ | ⟨p5, pre⟩⟩⟩⟩⟩
    · simp only [sizeFlags, List.nil_append, List.cons.injEq] at hsplit
      obtain ⟨h1, -⟩ := hsplit
      simp [RunE, assemblePayload, hq, Run.andThen, Run.call, h1, hs]
    · simp only [sizeFlags, List.cons_append, List.nil_append, List.cons.injEq] at hsplit
      obtain ⟨h1, h2, -⟩ := hsplit
      obtain ⟨m1, hm1⟩ := hpre p1 (by simp)
      simp [RunE, assemblePayload, hq, Run.andThen, Run.call, h1, h2, hs, hm1]
    · simp only [sizeFlags, List.cons_append, List.nil_append, List.cons.injEq] at hsplit
      obtain ⟨h1, h2, h3, -⟩ := hsplit
      obtain ⟨m1, hm1⟩ := hpre p1 (by simp)
      obtain ⟨m2, hm2⟩ := hpre p2 (by simp)
      simp [RunE, assemblePayload, hq, Run.andThen, Run.call, h1, h2, h3, hs, hm1, hm2]
    · simp only [sizeFlags, List.cons_append, List.nil_append, List.cons.injEq] at hsplit
      obtain ⟨h1, h2, h3, h4, -⟩ := hsplit
      obtain ⟨m1, hm1⟩ := hpre p1 (by simp)
      obtain ⟨m2, hm2⟩ := hpre p2 (by simp)
      obtain ⟨m3, hm3⟩ := hpre p3 (by simp)
      simp [RunE, assemblePayload, hq, Run.andThen, Run.call, h1, h2, h3, h4, hs, hm1, hm2, hm3]
    · simp only [sizeFlags, List.cons_append, List.nil_append, List.cons.injEq] at hsplit
      obtain ⟨h1, h2, h3, h4, h5, -⟩ := hsplit
      obtain ⟨m1, hm1⟩ := hpre p1 (by simp)
      obtain ⟨m2, hm2⟩ := hpre p2 (by simp)
      obtain ⟨m3, hm3⟩ := hpre p3 (by simp)
      obtain ⟨m4, hm4⟩ := hpre p4 (by simp)
      simp [RunE, assemblePayload, hq, Run.andThen, Run.call, h1, h2, h3, h4, h5, hs, hm1, hm2,
        hm3, hm4]
    · have := congrArg List.length hsplit
      simp [sizeFlags] at this
  have hev : ∀ ev ∈ (RunE c region f).1,
      (∃ file, ev = .decodeDefinition file) ∨ ∃ size, ev = .parseGb size := by
    intro ev hmem
    rw [key] at hmem
    simp only [List.mem_append, List.mem_map] at hmem
    rcases hmem with hmem | ⟨size, -, rfl⟩
    · by_cases hf : f.file = ""
      · simp [hf] at hmem
      · simp only [hf, if_false, List.mem_singleton] at hmem
        exact Or.inl ⟨_, hmem⟩
    · exact Or.inr ⟨size, rfl⟩
  have hsil := isAssembly_silent (RunE c region f).1 (by
    intro ev hmem
    rcases hev ev hmem with ⟨file, rfl⟩ | ⟨size, rfl⟩ <;> rfl)
  refine ⟨by rw [key], by rw [key], hev, hsil.2.1, hsil.1, hsil.2.2⟩

theorem assemblePayload_generatePayload (c : Collaborators Payload Response)
    (region : String) (f : Flags) (b : Bool) :
    assemblePayload c region { f with generatePayload := b } = assemblePayload c region f :=
  rfl

theorem RunE_of_assembled (c : Collaborators Payload Response) (region : String) (f : Flags)
    (tr : List (Event Payload Response)) (p : Option Payload)
    (hasm : assemblePayload c region f = (tr, .ok p)) :
    RunE c region f = (tr ++ (coordinate c f p).1, (coordinate c f p).2) := by
  unfold RunE
  exact andThen_of_ok _ _ tr p hasm

theorem assembled_trace_silent (c : Collaborators Payload Response) (region : String)
    (f : Flags) (tr : List (Event Payload Response)) (r : Except GoError (Option Payload))
    (hasm : assemblePayload c region f = (tr, r)) :
    (∀ ev ∈ tr, ev.isAssembly = true) ∧
      submitted tr = [] ∧ stderrText tr = [] ∧ createCalls tr = [] := by
  have h := assemblePayload_isAssembly c region f
  rw [hasm] at h
  exact ⟨h, isAssembly_silent tr h⟩

/-- C6: with `--generate-payload`, a run that reaches the coordinator with the
payload `p` ends with the formatter's call on `p` and returns the formatter's
outcome; the run has no create call, no request-identifier generation and no
tracker call; and the same invocation without the flag reaches the coordinator
with the same events and hands the same `p` to its one create call. -/
theorem C6_generate_payload_no_create (c : Collaborators Payload Response) (region : String)
    (f : Flags) (tr : List (Event Payload Response)) (p : Option Payload)
    (hgen : f.generatePayload = true)
    (hasm : assemblePayload c region f = (tr, .ok p)) :
    RunE c region f = (tr ++ [.format p], c.format p)
      ∧ createCalls (RunE c region f).1 = []
      ∧ (∀ ev ∈ (RunE c region f).1,
          (∀ params, ev ≠ .create params) ∧ (∀ flag, ev ≠ .requestID flag) ∧
            (∀ params, ev ≠ .track params))
      ∧ (∃ rest, (RunE c region { f with generatePayload := false }).1 =
          tr ++ .requestID f.requestID ::
            .create { RequestID := c.requestID f.requestID, Request := p } :: rest)
      ∧ createCalls (RunE c region { f with generatePayload := false }).1 =
          [{ RequestID := c.requestID f.requestID, Request := p }] := by
  obtain ⟨hass, -, -, hcr⟩ := assembled_trace_silent c region f tr _ hasm
  have hco : coordinate c f p = ([.format p], c.format p) := by
    simp [coordinate, hgen, Run.call]
  have hrun : RunE c region f = (tr ++ [.format p], c.format p) := by
    rw [RunE_of_assembled c region f tr p hasm, hco]
  have hasm' : assemblePayload c region { f with generatePayload := false } = (tr, .ok p) := by
    rw [assemblePayload_generatePayload]
    exact hasm
  have hrun' := RunE_of_assembled c region { f with generatePayload := false } tr p hasm'
  refine ⟨hrun, ?_, ?_, ?_, ?_⟩
  · rw [hrun]
    simp [createCalls_append, hcr, createCalls]
  · intro ev hev
    rw [hrun] at hev
    simp only [List.mem_append, List.mem_singleton] at hev
    rcases hev with hev | rfl
    · have := hass ev hev
      refine ⟨?_, ?_, ?_⟩ <;> intro x hx <;> subst hx <;> simp [Event.isAssembly] at this
    · simp
  · rw [hrun']
    cases hc : c.create ⟨c.requestID f.requestID, p⟩ <;>
      simp [coordinate, hc]
  · rw [hrun']
    cases hc : c.create ⟨c.requestID f.requestID, p⟩ <;>
      simp [coordinate, hc, createCalls_append, hcr, createCalls]

/-- C7: when the create call of a run fails with `e`, the run ends with the
request-identifier step, the one create call and two writes to the error
stream, the advisory line and then `Request ID: <id>` with the identifier of
that create call; it returns `e` itself, makes no second create call and no
tracker call. -/
theorem C7_create_failure_diagnostic (c : Collaborators Payload Response) (region : String)
    (f : Flags) (tr : List (Event Payload Response)) (p : Option Payload) (e : GoError)
    (hgen : f.generatePayload = false)
    (hasm : assemblePayload c region f = (tr, .ok p))
    (hcreate : c.create { RequestID := c.requestID f.requestID, Request := p } = .error e) :
    RunE c region f =
        (tr ++ [.requestID f.requestID,
          .create { RequestID := c.requestID f.requestID, Request := p },
          .stderrWrite "The deployment creation returned with an error. Use the displayed request ID to recreate the deployment resources\n",
          .stderrWrite ("Request ID: " ++ c.requestID f.requestID ++ "\n")],
          .error e)
      ∧ stderrText (RunE c region f).1 =
          ["The deployment creation returned with an error. Use the displayed request ID to recreate the deployment resources\n",
           "Request ID: " ++ c.requestID f.requestID ++ "\n"]
      ∧ createCalls (RunE c region f).1 =
          [{ RequestID := c.requestID f.requestID, Request := p }]
      ∧ (∀ ev ∈ (RunE c region f).1, ∀ params, ev ≠ .track params) := by
  obtain ⟨hass, -, hst, hcr⟩ := assembled_trace_silent c region f tr _ hasm
  have hline : fprintln ["Request ID:", c.requestID f.requestID] =
      "Request ID: " ++ c.requestID f.requestID ++ "\n" := by
    simp only [fprintln]
    rw [String.append_assoc]
    rfl
  have hco : coordinate c f p =
      ([.requestID f.requestID,
        .create { RequestID := c.requestID f.requestID, Request := p },
        .stderrWrite "The deployment creation returned with an error. Use the displayed request ID to recreate the deployment resources\n",
        .stderrWrite ("Request ID: " ++ c.requestID f.requestID ++ "\n")],
        .error e) := by
    simp only [coordinate, hgen, hcreate, hline]
    simp [fprintln]
  have hrun := RunE_of_assembled c region f tr p hasm
  rw [hco] at hrun
  refine ⟨hrun, ?_, ?_, ?_⟩
  · rw [hrun]
    simp [stderrText_append, hst, stderrText]
  · rw [hrun]
    simp [createCalls_append, hcr, createCalls]
  · intro ev hev params hx
    subst hx
    rw [hrun] at hev
    simp only [List.mem_append, List.mem_cons, List.mem_singleton] at hev
    rcases hev with hev | hev
    · have := hass _ hev
      simp [Event.isAssembly] at this
    · simp at hev

theorem andThen_result_ok {α β : Type} (x : Run Payload Response α)
    (k : α → Run Payload Response β) (b : β) :
    (x.andThen k).2 = .ok b ↔ ∃ a, x.2 = .ok a ∧ (k a).2 = .ok b := by
  rcases x with ⟨tr, e | a⟩ <;> simp [Run.andThen]

/-- With a payload decoded from the file, the assembly part can only end with
that payload. -/
theorem assemblePayload_file_result (c : Collaborators Payload Response) (region : String)
    (f : Flags) (p : Payload) (q : Option Payload)
    (hdec : (decodeFile c f).2 = .ok (some p))
    (hq : (assemblePayload c region f).2 = .ok q) : q = some p := by
  simp only [assemblePayload, andThen_result_ok, Run.call] at hq
  obtain ⟨payload, h0, a, -, b, -, d, -, g, -, k, -, topo, -, h⟩ := hq
  rw [hdec] at h0
  cases h0
  simpa using h.symm

theorem decodeFile_of_decoded (c : Collaborators Payload Response) (f : Flags)
    (p : Option Payload) (hfile : f.file ≠ "") (hdec : c.decodeDefinition f.file = .ok p) :
    decodeFile c f = ([.decodeDefinition f.file], .ok p) := by
  simp [decodeFile, hfile, hdec]

theorem coordinate_congr (c : Collaborators Payload Response) (f g : Flags)
    (q : Option Payload) (h1 : g.generatePayload = f.generatePayload)
    (h2 : g.requestID = f.requestID) (h3 : g.track = f.track) :
    coordinate c g q = coordinate c f q := by
  simp only [coordinate, h1, h2, h3]

/-- With a payload decoded from the file, the assembly part ends with that
payload exactly when the size and topology flags are all accepted. -/
theorem assemblePayload_file_ok_iff (c : Collaborators Payload Response) (region : String)
    (f : Flags) (p : Payload) (hdec : (decodeFile c f).2 = .ok (some p)) :
    (assemblePayload c region f).2 = .ok (some p) ↔ flagsAccepted c f := by
  simp only [assemblePayload, andThen_result_ok, Run.call, flagsAccepted, sizeFlags,
    List.mem_cons, List.mem_singleton, List.not_mem_nil, or_false, forall_eq_or_imp, forall_eq]
  constructor
  · rintro ⟨payload, -, a, ha, b, hb, d, hd, g, hg, k, hk, topo, ht, -⟩
    exact ⟨⟨⟨a, ha⟩, ⟨b, hb⟩, ⟨d, hd⟩, ⟨g, hg⟩, ⟨k, hk⟩⟩, ⟨topo, ht⟩⟩
  · rintro ⟨⟨⟨a, ha⟩, ⟨b, hb⟩, ⟨d, hd⟩, ⟨g, hg⟩, ⟨k, hk⟩⟩, ⟨topo, ht⟩⟩
    exact ⟨some p, hdec, a, ha, b, hb, d, hd, g, hg, k, hk, topo, ht, rfl⟩

theorem RunE_result_of_error (c : Collaborators Payload Response) (region : String)
    (f : Flags) (e : GoError) (h : (assemblePayload c region f).2 = .error e) :
    (RunE c region f).2 = .error e := by
  unfold RunE
  rcases hx : assemblePayload c region f with ⟨tr, e' | q⟩
  · rw [hx] at h
    simpa [Run.andThen] using h
  · rw [hx] at h
    cases h

theorem RunE_result_of_ok (c : Collaborators Payload Response) (region : String)
    (f : Flags) (q : Option Payload) (h : (assemblePayload c region f).2 = .ok q) :
    (RunE c region f).2 = (coordinate c f q).2 := by
  have hx : assemblePayload c region f = ((assemblePayload c region f).1, .ok q) :=
    Prod.ext rfl h
  rw [RunE_of_assembled c region f _ q hx]

/-- C5 (as the code has it): when `--file` is given and decodes to the payload
`p`, the payload builder is not called and every payload handed to the create
call or to the formatter is `p` itself, also for an invocation `g` with the
same file, `--generate-payload`, `--request-id` and `--track` and any other
flag values. The size and topology flags are still checked: the run hands
over `p`, once, exactly when they are all accepted, and hands over nothing and
returns an error otherwise. Two such invocations whose size and topology flags
are accepted hand over the same payload `p` and end alike. -/
theorem C5_file_mode_payload (c : Collaborators Payload Response) (region : String)
    (f g : Flags) (p : Payload)
    (hfile : f.file ≠ "") (hdec : c.decodeDefinition f.file = .ok (some p))
    (hg : g.file = f.file ∧ g.generatePayload = f.generatePayload ∧
      g.requestID = f.requestID ∧ g.track = f.track) :
    (∀ params, Event.newPayload params ∉ (RunE c region f).1)
      ∧ (∀ params, Event.newPayload params ∉ (RunE c region g).1)
      ∧ (∀ q, (assemblePayload c region f).2 = .ok q → q = some p)
      ∧ (∀ q ∈ submitted (RunE c region f).1, q = some p)
      ∧ (∀ q ∈ submitted (RunE c region g).1, q = some p)
      ∧ (submitted (RunE c region f).1 = [some p] ↔ flagsAccepted c f)
      ∧ (¬ flagsAccepted c f →
          submitted (RunE c region f).1 = [] ∧ ∃ e, (RunE c region f).2 = .error e)
      ∧ (flagsAccepted c f → flagsAccepted c g →
          submitted (RunE c region f).1 = [some p] ∧
            submitted (RunE c region g).1 = [some p] ∧
            (RunE c region g).2 = (RunE c region f).2 ∧
            coordinate c g (some p) = coordinate c f (some p)) := by
  obtain ⟨hg0, hg1, hg2, hg3⟩ := hg
  have hdf : decodeFile c f = ([.decodeDefinition f.file], .ok (some p)) :=
    decodeFile_of_decoded c f _ hfile hdec
  have hdg : decodeFile c g = ([.decodeDefinition g.file], .ok (some p)) :=
    decodeFile_of_decoded c g _ (by rw [hg0]; exact hfile) (by rw [hg0]; exact hdec)
  have hnof : ∀ params, Event.newPayload params ∉ (RunE c region f).1 := by
    intro params hmem
    obtain ⟨_, _, _, _, _, _, h0, -⟩ := RunE_newPayload c region f params hmem
    rw [hdf] at h0
    simp at h0
  have hnog : ∀ params, Event.newPayload params ∉ (RunE c region g).1 := by
    intro params hmem
    obtain ⟨_, _, _, _, _, _, h0, -⟩ := RunE_newPayload c region g params hmem
    rw [hdg] at h0
    simp at h0
  have hqf : ∀ q, (assemblePayload c region f).2 = .ok q → q = some p :=
    fun q hq => assemblePayload_file_result c region f p q (by rw [hdf]) hq
  have hqg : ∀ q, (assemblePayload c region g).2 = .ok q → q = some p :=
    fun q hq => assemblePayload_file_result c region g p q (by rw [hdg]) hq
  have hifff := assemblePayload_file_ok_iff c region f p (by rw [hdf])
  have hiffg := assemblePayload_file_ok_iff c region g p (by rw [hdg])
  have hsubf : ∀ q ∈ submitted (RunE c region f).1, q = some p := by
    intro q hmem
    rw [submitted_RunE] at hmem
    cases hr : (assemblePayload c region f).2 with
    | error e => simp [hr] at hmem
    | ok r =>
      simp only [hr, List.mem_singleton] at hmem
      rw [hmem]
      exact hqf r hr
  have hsubg : ∀ q ∈ submitted (RunE c region g).1, q = some p := by
    intro q hmem
    rw [submitted_RunE] at hmem
    cases hr : (assemblePayload c region g).2 with
    | error e => simp [hr] at hmem
    | ok r =>
      simp only [hr, List.mem_singleton] at hmem
      rw [hmem]
      exact hqg r hr
  have hexact : submitted (RunE c region f).1 = [some p] ↔ flagsAccepted c f := by
    rw [← hifff, submitted_RunE]
    cases hr : (assemblePayload c region f).2 with
    | error e => simp
    | ok r => simp [hqf r hr]
  have hrej : ¬ flagsAccepted c f →
      submitted (RunE c region f).1 = [] ∧ ∃ e, (RunE c region f).2 = .error e := by
    intro hna
    cases hr : (assemblePayload c region f).2 with
    | error e =>
      exact ⟨by rw [submitted_RunE, hr], e, RunE_result_of_error c region f e hr⟩
    | ok r =>
      have := hqf r hr
      subst this
      exact absurd (hifff.1 hr) hna
  refine ⟨hnof, hnog, hqf, hsubf, hsubg, hexact, hrej, ?_⟩
  intro haf hag
  have hrf := hifff.2 haf
  have hrg := hiffg.2 hag
  have hco := coordinate_congr c f g (some p) hg1 hg2 hg3
  refine ⟨by rw [submitted_RunE, hrf], by rw [submitted_RunE, hrg], ?_, hco⟩
  rw [RunE_result_of_ok c region g _ hrg, RunE_result_of_ok c region f _ hrf, hco]

/-- C5 as the claim states it fails: `--file payload.json --apm` and the same
invocation with `--es-size four` both decode the file to the same payload and
differ in a size flag only; the first hands the payload to the create call,
the second returns the Size Parser's error and hands over nothing. -/
theorem C5_counterexample :
    sampleCollaborators.decodeDefinition fileFlags.file = .ok (some "payload of payload.json")
      ∧ sampleCollaborators.decodeDefinition ({ fileFlags with esSize := "four" } : Flags).file =
          .ok (some "payload of payload.json")
      ∧ submitted (RunE sampleCollaborators "us-east-1" fileFlags).1 =
          [some "payload of payload.json"]
      ∧ submitted (RunE sampleCollaborators "us-east-1" { fileFlags with esSize := "four" }).1 =
          []
      ∧ (RunE sampleCollaborators "us-east-1" { fileFlags with esSize := "four" }).2 =
          .error (.text "failed to convert \"four\" to <size><unit>") :=
  ⟨rfl, rfl, rfl, rfl, rfl⟩

/-- C5 (as the code has it) at the flags of scenario S6 against the same file
with other service flags: both are accepted and hand the payload of the file
to the create call. -/
theorem C5_file_mode_payload_witness :
    (fileFlags.file ≠ "" ∧
        sampleCollaborators.decodeDefinition fileFlags.file = .ok (some "payload of payload.json"))
      ∧ flagsAccepted sampleCollaborators fileFlags
      ∧ (∀ params, Event.newPayload params ∉
          (RunE sampleCollaborators "us-east-1" fileFlags).1)
      ∧ submitted (RunE sampleCollaborators "us-east-1" fileFlags).1 =
          [some "payload of payload.json"]
      ∧ submitted (RunE sampleCollaborators "us-east-1"
          { fileFlags with apmEnable := false, esSize := "64g", kibanaZoneCount := 3 }).1 =
          [some "payload of payload.json"] :=
  have h := C5_file_mode_payload sampleCollaborators "us-east-1" fileFlags
    { fileFlags with apmEnable := false, esSize := "64g", kibanaZoneCount := 3 }
    "payload of payload.json" (by decide) rfl ⟨rfl, rfl, rfl, rfl⟩
  have haf : flagsAccepted sampleCollaborators fileFlags := h.2.2.2.2.2.1.1 rfl
  have hg := C5_file_mode_payload sampleCollaborators "us-east-1"
    { fileFlags with apmEnable := false, esSize := "64g", kibanaZoneCount := 3 } fileFlags
    "payload of payload.json" (by decide) rfl ⟨rfl, rfl, rfl, rfl⟩
  have hag := hg.2.2.2.2.2.1.1 rfl
  ⟨⟨by decide, rfl⟩, haf, h.1, (h.2.2.2.2.2.2.2 haf hag).1, (h.2.2.2.2.2.2.2 haf hag).2.1⟩

/-- C6 at the flags of scenario S4. -/
theorem C6_generate_payload_no_create_witness :
    RunE sampleCollaborators "us-east-1" generateFlags =
        ([.parseGb "0.5g", .parseGb "2g", .parseGb "4g", .parseGb "4g", .parseGb "1g",
          .newPayload { defaultParams with ApmEnable := true }] ++
          [.format (some "payload from template aws-io-optimized-v2")], .ok ())
      ∧ createCalls (RunE sampleCollaborators "us-east-1" generateFlags).1 = []
      ∧ createCalls (RunE sampleCollaborators "us-east-1"
          { generateFlags with generatePayload := false }).1 =
          [{ RequestID := "generated-request-id",
             Request := some "payload from template aws-io-optimized-v2" }] :=
  have h := C6_generate_payload_no_create sampleCollaborators "us-east-1" generateFlags
    [.parseGb "0.5g", .parseGb "2g", .parseGb "4g", .parseGb "4g", .parseGb "1g",
      .newPayload { defaultParams with ApmEnable := true }]
    (some "payload from template aws-io-optimized-v2") rfl rfl
  ⟨h.1, h.2.1, h.2.2.2.2⟩

/-- C7 at the default flags, whose generated request identifier the create
endpoint of the sample refuses. -/
theorem C7_create_failure_diagnostic_witness :
    stderrText (RunE sampleCollaborators "us-east-1" defaultFlags).1 =
        ["The deployment creation returned with an error. Use the displayed request ID to recreate the deployment resources\n",
         "Request ID: generated-request-id\n"]
      ∧ (RunE sampleCollaborators "us-east-1" defaultFlags).2 = .error (.text "api error")
      ∧ createCalls (RunE sampleCollaborators "us-east-1" defaultFlags).1 =
          [{ RequestID := "generated-request-id",
             Request := some "payload from template aws-io-optimized-v2" }] :=
  have h := C7_create_failure_diagnostic sampleCollaborators "us-east-1" defaultFlags
    [.parseGb "0.5g", .parseGb "2g", .parseGb "4g", .parseGb "4g", .parseGb "1g",
      .newPayload defaultParams]
    (some "payload from template aws-io-optimized-v2") (.text "api error") rfl rfl rfl
  ⟨h.2.1, congrArg Prod.snd h.1, h.2.2.1⟩

/-- C8 at the default flags in region `us-east-1`. -/
theorem C8_template_id_non_empty_witness :
    Event.newPayload defaultParams ∈ (RunE sampleCollaborators "us-east-1" defaultFlags).1
      ∧ defaultParams.DeploymentTemplateID = "aws-io-optimized-v2"
      ∧ defaultParams.DeploymentTemplateID ≠ "" :=
  have hmem : Event.newPayload defaultParams ∈
      (RunE sampleCollaborators "us-east-1" defaultFlags).1 := by decide
  have h := C8_template_id_non_empty sampleCollaborators "us-east-1" defaultFlags
    defaultParams hmem
  ⟨hmem, rfl, h.2.1⟩

/-- C9 as the claim states it fails: with `--es-zones 0` the search-engine
spec, always present, reaches the payload builder with zone count 0. -/
theorem C9_counterexample :
    ∃ params : NewPayloadParams,
      Event.newPayload params ∈
          (RunE sampleCollaborators "us-east-1" { defaultFlags with esZoneCount := 0 }).1
        ∧ ¬ 1 ≤ params.ElasticsearchInstance.ZoneCount :=
  ⟨{ defaultParams with
      ElasticsearchInstance := { RefID := "main-elasticsearch", Size := 4096, ZoneCount := 0 } },
    by decide, by decide⟩

/-- C9 (as the code has it) at `--es-zones 0 --kibana-zones 3`. -/
theorem C9_zone_counts_are_the_flags_witness :
    Event.newPayload
        { defaultParams with
          ElasticsearchInstance := { RefID := "main-elasticsearch", Size := 4096, ZoneCount := 0 },
          KibanaInstance := { RefID := "main-kibana", Size := 1024, ZoneCount := 3 } } ∈
        (RunE sampleCollaborators "us-east-1"
          { defaultFlags with esZoneCount := 0, kibanaZoneCount := 3 }).1
      ∧ (0 : Int) = ({ defaultFlags with esZoneCount := 0, kibanaZoneCount := 3 } : Flags).esZoneCount
      ∧ (3 : Int) = ({ defaultFlags with esZoneCount := 0, kibanaZoneCount := 3 } : Flags).kibanaZoneCount :=
  have hmem : Event.newPayload
        { defaultParams with
          ElasticsearchInstance := { RefID := "main-elasticsearch", Size := 4096, ZoneCount := 0 },
          KibanaInstance := { RefID := "main-kibana", Size := 1024, ZoneCount := 3 } } ∈
        (RunE sampleCollaborators "us-east-1"
          { defaultFlags with esZoneCount := 0, kibanaZoneCount := 3 }).1 := by decide
  have h := C9_zone_counts_are_the_flags sampleCollaborators "us-east-1"
    { defaultFlags with esZoneCount := 0, kibanaZoneCount := 3 } _ hmem
  ⟨hmem, h.1, h.2.1⟩

/-- C10 in file mode: `--file payload.json --es-size four`. -/
theorem C10_size_error_returned_witness :
    (RunE sampleCollaborators "us-east-1" { fileFlags with esSize := "four" }).2 =
        .error (.text "failed to convert \"four\" to <size><unit>")
      ∧ (RunE sampleCollaborators "us-east-1" { fileFlags with esSize := "four" }).1 =
          [.decodeDefinition "payload.json", .parseGb "0.5g", .parseGb "2g", .parseGb "four"]
      ∧ stderrText (RunE sampleCollaborators "us-east-1" { fileFlags with esSize := "four" }).1 = [] :=
  have h := C10_size_error_returned sampleCollaborators "us-east-1"
    { fileFlags with esSize := "four" } ["0.5g", "2g"] "four" ["4g", "1g"]
    (.text "failed to convert \"four\" to <size><unit>")
    (Or.inr ⟨some "payload of payload.json", rfl⟩) rfl
    (by
      intro y hy
      simp only [List.mem_cons, List.mem_singleton, List.not_mem_nil, or_false] at hy
      rcases hy with rfl | rfl
      · exact ⟨512, rfl⟩
      · exact ⟨2048, rfl⟩)
    rfl
  ⟨h.1, h.2.1, h.2.2.2.1⟩

end CommandProps





/-! ## The JSON codec on its own output -/

theorem digitValue_digit (n : Nat) (h : n < 10) : digitValue (Char.ofNat (48 + n)) = some n := by
  interval_cases n <;> rfl

theorem digit_eq_zero (n : Nat) (h : n < 10) (h0 : Char.ofNat (48 + n) = '0') : n = 0 := by
  interval_cases n <;> first | rfl | (exact absurd h0 (by decide))

theorem digitsValue_append (xs : List Char) (c : Char) (acc : Nat) :
    digitsValue (xs ++ [c]) acc =
      match digitsValue xs acc, digitValue c with
      | some v, some d => some (v * 10 + d)
      | _, _ => none := by
  induction xs generalizing acc with
  | nil => simp only [List.nil_append, digitsValue]; cases digitValue c <;> rfl
  | cons x xs ih =>
    simp only [List.cons_append, digitsValue]
    cases hx : digitValue x with
    | none => simp
    | some d => simp [ih]

theorem natDigits_spec (fuel n : Nat) (h : n < 10 ^ (fuel + 1)) :
    ∃ d ds, natDigits (fuel + 1) n = d :: ds ∧ (∀ c ∈ d :: ds, (digitValue c).isSome = true) ∧
      (d = '0' → n = 0 ∧ ds = []) ∧ digitsValue (d :: ds) 0 = some n := by
  induction fuel generalizing n with
  | zero =>
    have h10 : n < 10 := by simpa using h
    refine ⟨Char.ofNat (48 + n), [], by simp [natDigits, h10], ?_, ?_, ?_⟩
    · intro c hc
      rw [List.mem_singleton] at hc
      rw [hc, digitValue_digit n h10]
      rfl
    · intro h0
      exact ⟨digit_eq_zero n h10 h0, rfl⟩
    · simp [digitsValue, digitValue_digit n h10]
  | succ fuel ih =>
    by_cases h10 : n < 10
    · refine ⟨Char.ofNat (48 + n), [], by simp [natDigits, h10], ?_, ?_, ?_⟩
      · intro c hc
        rw [List.mem_singleton] at hc
        rw [hc, digitValue_digit n h10]
        rfl
      · intro h0
        exact ⟨digit_eq_zero n h10 h0, rfl⟩
      · simp [digitsValue, digitValue_digit n h10]
    · have hq : n / 10 < 10 ^ (fuel + 1) := by
        rw [Nat.div_lt_iff_lt_mul (by norm_num)]
        calc n < 10 ^ (fuel + 1 + 1) := h
          _ = 10 ^ (fuel + 1) * 10 := by rw [pow_succ]
      obtain ⟨d, ds, hd, hall, hzero, hval⟩ := ih (n / 10) hq
      have hmod : n % 10 < 10 := Nat.mod_lt _ (by norm_num)
      refine ⟨d, ds ++ [Char.ofNat (48 + n % 10)], ?_, ?_, ?_, ?_⟩
      · rw [natDigits, if_neg h10, hd]
        rfl
      · intro c hc
        rw [← List.cons_append, List.mem_append, List.mem_singleton] at hc
        rcases hc with hc | hc
        · exact hall c hc
        · rw [hc, digitValue_digit _ hmod]
          rfl
      · intro h0
        have := (hzero h0).1
        omega
      · rw [← List.cons_append, digitsValue_append, hval, digitValue_digit _ hmod]
        simp only [Option.some.injEq]
        omega

theorem natChars_spec (n : Nat) :
    ∃ d ds, natChars n = d :: ds ∧ (∀ c ∈ d :: ds, (digitValue c).isSome = true) ∧
      (d = '0' → n = 0 ∧ ds = []) ∧ digitsValue (d :: ds) 0 = some n := by
  apply natDigits_spec
  calc n < 2 ^ n := Nat.lt_two_pow n
    _ ≤ 10 ^ n := Nat.pow_le_pow_left (by norm_num) n
    _ ≤ 10 ^ (n + 1) := Nat.pow_le_pow_right (by norm_num) (by omega)

theorem isDigit_range (c : Char) (h : (digitValue c).isSome = true) :
    48 ≤ c.toNat ∧ c.toNat ≤ 57 := by
  unfold digitValue at h
  by_cases hc : 48 ≤ c.toNat ∧ c.toNat ≤ 57
  · exact hc
  · simp [hc] at h

theorem readDigits_append (ds rest : List Char)
    (hds : ∀ c ∈ ds, (digitValue c).isSome = true)
    (hrest : ∀ c r, rest = c :: r → (digitValue c).isSome = false) :
    readDigits (ds ++ rest) = (ds, rest) := by
  induction ds with
  | nil =>
    cases rest with
    | nil => rfl
    | cons c r => simp [readDigits, hrest c r rfl]
  | cons d ds ih =>
    have hd := hds d (List.mem_cons_self _ _)
    have := ih (fun c hc => hds c (List.mem_cons_of_mem _ hc))
    simp [readDigits, hd, this]

theorem readNumber_intChars (i : Int) (sep : Char) (R : List Char)
    (hsep : sep = ',' ∨ sep = '}') :
    readNumber (intChars i ++ sep :: R) = some (intChars i, sep :: R) := by
  have hsepd : ∀ c r, sep :: R = c :: r → (digitValue c).isSome = false := by
    intro c r h
    cases h
    rcases hsep with rfl | rfl <;> rfl
  have hfrac : startsFraction (sep :: R) = false := by
    rcases hsep with rfl | rfl <;> rfl
  unfold intChars
  by_cases hneg : i < 0
  · obtain ⟨d, ds, hd, hall, hzero, -⟩ := natChars_spec i.natAbs
    have hrd := readDigits_append (d :: ds) (sep :: R) hall hsepd
    have hz : ¬ (d = '0' ∧ ds ≠ []) := fun h => h.2 (hzero h.1).2
    simp only [if_pos hneg, hd, List.cons_append]
    simp only [List.cons_append] at hrd
    simp [readNumber, hrd, hz, hfrac]
  · obtain ⟨d, ds, hd, hall, hzero, -⟩ := natChars_spec i.toNat
    have hrd := readDigits_append (d :: ds) (sep :: R) hall hsepd
    have hz : ¬ (d = '0' ∧ ds ≠ []) := fun h => h.2 (hzero h.1).2
    have hdr := isDigit_range d (hall d (List.mem_cons_self _ _))
    have hdm : d ≠ '-' := by
      rintro rfl
      simp at hdr
    simp only [if_neg hneg, hd, List.cons_append]
    simp only [List.cons_append] at hrd
    simp [readNumber, hrd, hz, hfrac, hdm]

theorem literalValue_intChars (i : Int) : literalValue (intChars i) = i := by
  unfold intChars
  by_cases hneg : i < 0
  · obtain ⟨d, ds, hd, -, -, hval⟩ := natChars_spec i.natAbs
    simp only [if_pos hneg, hd, literalValue, if_true, hval, Option.getD_some]
    omega
  · obtain ⟨d, ds, hd, hall, -, hval⟩ := natChars_spec i.toNat
    have hdr := isDigit_range d (hall d (List.mem_cons_self _ _))
    have hdm : d ≠ '-' := by
      rintro rfl
      simp at hdr
    simp only [if_neg hneg, hd, literalValue, if_neg hdm, hval, Option.getD_some]
    omega

theorem readValue_intChars (i : Int) (sep : Char) (R : List Char)
    (hsep : sep = ',' ∨ sep = '}') :
    readValue (intChars i ++ sep :: R) = some (.num (intChars i), sep :: R) := by
  have hnum := readNumber_intChars i sep R hsep
  have hhead : ∃ c cs, intChars i = c :: cs ∧ c ≠ '"' ∧ c ≠ 't' ∧ c ≠ 'f' ∧ c ≠ 'n' := by
    unfold intChars
    by_cases hneg : i < 0
    · exact ⟨'-', natChars i.natAbs, by simp [hneg], by decide, by decide, by decide, by decide⟩
    · obtain ⟨d, ds, hd, hall, -, -⟩ := natChars_spec i.toNat
      have hdr := isDigit_range d (hall d (List.mem_cons_self _ _))
      refine ⟨d, ds, by simp [hneg, hd], ?_, ?_, ?_, ?_⟩ <;>
        · rintro rfl
          simp at hdr
  obtain ⟨c, cs, hc, h1, h2, h3, h4⟩ := hhead
  rw [hc] at hnum ⊢
  simp only [List.cons_append] at hnum ⊢
  simp [readValue, h1, h2, h3, h4, hnum]

theorem hexValue_hexDigit (n : Nat) (h : n < 16) : hexValue (hexDigit n) = some n := by
  interval_cases n <;> rfl

theorem readString_cons_plain (c : Char) (rest : List Char)
    (h1 : c ≠ '"') (h2 : c ≠ '\\') (h3 : ¬ c.toNat < 32) :
    readString (c :: rest) =
      consChar c (readString rest) := by
  rw [readString.eq_def]
  simp only [if_neg h1, if_neg h2, if_neg h3]

theorem readString_escape1 (e ch : Char) (rest : List Char)
    (hu : e ≠ 'u') (he : unescape e = some ch) :
    readString ('\\' :: e :: rest) =
      consChar ch (readString rest) := by
  rw [readString.eq_def]
  simp [hu, he]

theorem readString_escape4 (h1 h2 h3 h4 : Char) (a b d g : Nat) (rest : List Char)
    (ha : hexValue h1 = some a) (hb : hexValue h2 = some b) (hd : hexValue h3 = some d)
    (hg : hexValue h4 = some g) :
    readString ('\\' :: 'u' :: h1 :: h2 :: h3 :: h4 :: rest) =
      consChar (codeUnitChar (((a * 16 + b) * 16 + d) * 16 + g)) (readString rest) := by
  rw [readString.eq_def]
  simp [ha, hb, hd, hg]

theorem readString_escapeChar (c : Char) (rest : List Char) :
    readString (escapeChar c ++ rest) = consChar c (readString rest) := by
  unfold escapeChar
  split_ifs with h1 h2 h3 h4 h5 h6 h7 h8
  · subst h1
    exact readString_escape1 '"' '"' rest (by decide) rfl
  · subst h2
    exact readString_escape1 '\\' '\\' rest (by decide) rfl
  · subst h3
    exact readString_escape1 'n' '\n' rest (by decide) rfl
  · subst h4
    exact readString_escape1 'r' '\r' rest (by decide) rfl
  · subst h5
    exact readString_escape1 't' '\t' rest (by decide) rfl
  · have hlt : c.toNat < 128 := by
      rcases h6 with h | rfl | rfl | rfl
      · omega
      · decide
      · decide
      · decide
    have hhi : c.toNat / 16 < 16 := by omega
    have hlo : c.toNat % 16 < 16 := Nat.mod_lt _ (by norm_num)
    have := readString_escape4 '0' '0' (hexDigit (c.toNat / 16)) (hexDigit (c.toNat % 16))
      0 0 (c.toNat / 16) (c.toNat % 16) rest rfl rfl (hexValue_hexDigit _ hhi)
      (hexValue_hexDigit _ hlo)
    have hval : ((0 * 16 + 0) * 16 + c.toNat / 16) * 16 + c.toNat % 16 = c.toNat := by omega
    rw [hval] at this
    have hcu : codeUnitChar c.toNat = c := by
      unfold codeUnitChar
      rw [if_neg (by omega), Char.ofNat_toNat]
    rw [hcu] at this
    exact this
  · have := readString_escape4 '2' '0' '2' '8' 2 0 2 8 rest rfl rfl rfl rfl
    have hcu : codeUnitChar (((2 * 16 + 0) * 16 + 2) * 16 + 8) = c := by
      unfold codeUnitChar
      rw [if_neg (by omega)]
      have : ((2 * 16 + 0) * 16 + 2) * 16 + 8 = c.toNat := by omega
      rw [this, Char.ofNat_toNat]
    rw [hcu] at this
    exact this
  · have := readString_escape4 '2' '0' '2' '9' 2 0 2 9 rest rfl rfl rfl rfl
    have hcu : codeUnitChar (((2 * 16 + 0) * 16 + 2) * 16 + 9) = c := by
      unfold codeUnitChar
      rw [if_neg (by omega)]
      have : ((2 * 16 + 0) * 16 + 2) * 16 + 9 = c.toNat := by omega
      rw [this, Char.ofNat_toNat]
    rw [hcu] at this
    exact this
  · have h32 : ¬ c.toNat < 32 := fun h => h6 (Or.inl h)
    exact readString_cons_plain c rest h1 h2 h32

theorem readString_escapeString (s rest : List Char) :
    readString (escapeString s ++ '"' :: rest) = some (s, rest) := by
  induction s with
  | nil =>
    rw [readString.eq_def]
    simp [escapeString]
  | cons c cs ih =>
    rw [escapeString, List.append_assoc, readString_escapeChar, ih]
    rfl

theorem skipWs_cons_of_not_ws (c : Char) (cs : List Char) (h : isWs c = false) :
    skipWs (c :: cs) = c :: cs := by
  simp [skipWs, h]

theorem intChars_head (i : Int) :
    ∃ c cs, intChars i = c :: cs ∧ isWs c = false := by
  unfold intChars
  by_cases hneg : i < 0
  · exact ⟨'-', natChars i.natAbs, by simp [hneg], rfl⟩
  · obtain ⟨d, ds, hd, hall, -, -⟩ := natChars_spec i.toNat
    have hdr := isDigit_range d (hall d (List.mem_cons_self _ _))
    refine ⟨d, ds, by simp [hneg, hd], ?_⟩
    unfold isWs
    have h1 : d ≠ ' ' := by rintro rfl; simp at hdr
    have h2 : d ≠ '\t' := by rintro rfl; simp at hdr
    have h3 : d ≠ '\n' := by rintro rfl; simp at hdr
    have h4 : d ≠ '\r' := by rintro rfl; simp at hdr
    simp [h1, h2, h3, h4]

theorem skipWs_intChars (i : Int) (R : List Char) :
    skipWs (intChars i ++ R) = intChars i ++ R := by
  obtain ⟨c, cs, hc, hws⟩ := intChars_head i
  rw [hc, List.cons_append, skipWs_cons_of_not_ws _ _ hws]

theorem readMembers_str_comma (fuel : Nat) (key s R : List Char)
    (hkey : escapeString key = key) :
    readMembers (fuel + 1)
        ('"' :: (key ++ '"' :: ':' :: '"' :: (escapeString s ++ '"' :: ',' :: '"' :: R))) =
      consMember (key, .str s) (readMembers fuel ('"' :: R)) := by
  have hk : readString (key ++ '"' :: ':' :: '"' :: (escapeString s ++ '"' :: ',' :: '"' :: R)) =
      some (key, ':' :: '"' :: (escapeString s ++ '"' :: ',' :: '"' :: R)) := by
    have := readString_escapeString key (':' :: '"' :: (escapeString s ++ '"' :: ',' :: '"' :: R))
    rwa [hkey] at this
  have hv : readValue ('"' :: (escapeString s ++ '"' :: ',' :: '"' :: R)) =
      some (.str s, ',' :: '"' :: R) := by
    rw [readValue.eq_def]
    simp [readString_escapeString]
  rw [readMembers.eq_def]
  simp only [ne_eq, not_true_eq_false, if_false, hk]
  rw [skipWs_cons_of_not_ws _ _ (by rfl)]
  simp only [ne_eq, not_true_eq_false, if_false]
  rw [skipWs_cons_of_not_ws _ _ (by rfl), hv]
  simp only []
  rw [skipWs_cons_of_not_ws _ _ (by rfl)]
  simp only []
  rw [if_pos trivial, skipWs_cons_of_not_ws _ _ (by rfl)]
  rw [if_neg (by decide)]

theorem readMembers_num_comma (fuel : Nat) (key : List Char) (i : Int) (R : List Char)
    (hkey : escapeString key = key) :
    readMembers (fuel + 1)
        ('"' :: (key ++ '"' :: ':' :: (intChars i ++ ',' :: '"' :: R))) =
      consMember (key, .num (intChars i)) (readMembers fuel ('"' :: R)) := by
  have hk : readString (key ++ '"' :: ':' :: (intChars i ++ ',' :: '"' :: R)) =
      some (key, ':' :: (intChars i ++ ',' :: '"' :: R)) := by
    have := readString_escapeString key (':' :: (intChars i ++ ',' :: '"' :: R))
    rwa [hkey] at this
  rw [readMembers.eq_def]
  simp only [ne_eq, not_true_eq_false, if_false, hk]
  rw [skipWs_cons_of_not_ws _ _ (by rfl)]
  simp only [ne_eq, not_true_eq_false, if_false]
  rw [skipWs_intChars, readValue_intChars i ',' _ (Or.inl rfl)]
  simp only []
  rw [skipWs_cons_of_not_ws _ _ (by rfl)]
  simp only []
  rw [if_pos trivial, skipWs_cons_of_not_ws _ _ (by rfl)]
  rw [if_neg (by decide)]

theorem readMembers_num_close (fuel : Nat) (key : List Char) (i : Int) (R : List Char)
    (hkey : escapeString key = key) :
    readMembers (fuel + 1) ('"' :: (key ++ '"' :: ':' :: (intChars i ++ '}' :: R))) =
      some ([(key, .num (intChars i))], R) := by
  have hk : readString (key ++ '"' :: ':' :: (intChars i ++ '}' :: R)) =
      some (key, ':' :: (intChars i ++ '}' :: R)) := by
    have := readString_escapeString key (':' :: (intChars i ++ '}' :: R))
    rwa [hkey] at this
  rw [readMembers.eq_def]
  simp only [ne_eq, not_true_eq_false, if_false, hk]
  rw [skipWs_cons_of_not_ws _ _ (by rfl)]
  simp only [ne_eq, not_true_eq_false, if_false]
  rw [skipWs_intChars, readValue_intChars i '}' _ (Or.inr rfl)]
  simp only []
  rw [skipWs_cons_of_not_ws _ _ (by rfl)]
  simp only []
  rw [if_pos trivial]


theorem decodeMember_range (st : DecodeState) (m : List Char × JsonValue)
    (h : -2147483648 ≤ st.element.ZoneCount ∧ st.element.ZoneCount ≤ 2147483647) :
    -2147483648 ≤ (decodeMember st m).element.ZoneCount ∧
      (decodeMember st m).element.ZoneCount ≤ 2147483647 := by
  have hsave : ∀ e, (st.save e).element = st.element := by
    intro e
    unfold DecodeState.save
    cases st.saved <;> rfl
  unfold decodeMember
  simp only []
  split_ifs with h1 h2 h3
  · split <;> simp [hsave, h]
  · split <;> simp [hsave, h]
  · split
    · split_ifs with hr
      · exact hr
      · rw [hsave]; exact h
    · exact h
    · rw [hsave]; exact h
  · exact h

theorem foldl_decodeMember_range (ms : List (List Char × JsonValue)) (st : DecodeState)
    (h : -2147483648 ≤ st.element.ZoneCount ∧ st.element.ZoneCount ≤ 2147483647) :
    -2147483648 ≤ (ms.foldl decodeMember st).element.ZoneCount ∧
      (ms.foldl decodeMember st).element.ZoneCount ≤ 2147483647 := by
  induction ms generalizing st with
  | nil => exact h
  | cons m ms ih => exact ih _ (decodeMember_range st m h)

theorem decodeMembers_range (ms : List (List Char × JsonValue))
    (el : elasticsearchTopologyElement) (h : decodeMembers ms = .ok el) :
    -2147483648 ≤ el.ZoneCount ∧ el.ZoneCount ≤ 2147483647 := by
  unfold decodeMembers at h
  have hr := foldl_decodeMember_range ms
    { element := { NodeType := "", Size := "", ZoneCount := 0 }, saved := none }
    (by decide)
  revert h
  simp only []
  split
  · intro h; cases h
  · intro h
    cases h
    exact hr

/-- What the model of `json.Unmarshal` decodes has a zone count in `int32`. -/
theorem jsonUnmarshal_range (data : String) (el : elasticsearchTopologyElement)
    (h : jsonUnmarshal data = .ok el) :
    -2147483648 ≤ el.ZoneCount ∧ el.ZoneCount ≤ 2147483647 := by
  unfold jsonUnmarshal at h
  split at h
  · cases h
  · split_ifs at h with h1
    · split at h
      · cases h
      · split_ifs at h with h2 h3
        · cases h
          decide
        · split at h
          · cases h
          · split_ifs at h with h4
            exact decodeMembers_range _ _ h
    · split at h
      · cases h
      · split_ifs at h with h5
        split at h
        · cases h
          decide
        · cases h

theorem decodeMember_nodeType (st : DecodeState) (s : List Char) :
    decodeMember st ("node_type".toList, .str s) =
      { st with element := { st.element with NodeType := String.mk s } } := by
  rfl

theorem decodeMember_size_num (st : DecodeState) (lit : List Char) (h : st.saved = none) :
    (decodeMember st ("size".toList, .num lit)).saved = some sizeTypeError := by
  have : decodeMember st ("size".toList, .num lit) =
      st.save (typeError "number" "size" "string") := rfl
  rw [this]
  unfold DecodeState.save
  rw [h]
  rfl

theorem decodeMember_zoneCount (st : DecodeState) (z : Int)
    (hz : -2147483648 ≤ z ∧ z ≤ 2147483647) :
    decodeMember st ("zone_count".toList, .num (intChars z)) =
      { st with element := { st.element with ZoneCount := z } } := by
  have : decodeMember st ("zone_count".toList, .num (intChars z)) =
      if -2147483648 ≤ literalValue (intChars z) ∧ literalValue (intChars z) ≤ 2147483647 then
        { st with element := { st.element with ZoneCount := literalValue (intChars z) } }
      else st.save (typeError ("number " ++ String.mk (intChars z)) "zone_count" "int32") := rfl
  rw [this, literalValue_intChars, if_pos hz]

theorem decodeMembers_two (nt : List Char) (sz : Int) :
    decodeMembers [("node_type".toList, .str nt), ("size".toList, .num (intChars sz))] =
      .error sizeTypeError := by
  unfold decodeMembers
  simp only [List.foldl, decodeMember_nodeType]
  rw [decodeMember_size_num _ _ rfl]

theorem decodeMembers_three (nt : List Char) (z sz : Int)
    (hz : -2147483648 ≤ z ∧ z ≤ 2147483647) :
    decodeMembers [("node_type".toList, .str nt), ("zone_count".toList, .num (intChars z)),
        ("size".toList, .num (intChars sz))] = .error sizeTypeError := by
  unfold decodeMembers
  simp only [List.foldl, decodeMember_nodeType, decodeMember_zoneCount _ z hz]
  rw [decodeMember_size_num _ _ rfl]

theorem jsonUnmarshal_object (body : List Char) (ms : List (List Char × JsonValue))
    (h : readMembers ('"' :: body).length ('"' :: body) = some (ms, [])) :
    jsonUnmarshal (String.mk ('{' :: '"' :: body)) = decodeMembers ms := by
  unfold jsonUnmarshal
  have h1 : skipWs (String.mk ('{' :: '"' :: body)).toList = '{' :: '"' :: body :=
    skipWs_cons_of_not_ws _ _ rfl
  have h2 : skipWs ('"' :: body) = '"' :: body := skipWs_cons_of_not_ws _ _ rfl
  rw [h1]
  simp only [if_true]
  rw [h2]
  simp only []
  rw [if_neg (by decide), h]
  simp [skipWs]

theorem length_ge_add {α : Type} (xs : List α) (k : Nat) (h : k ≤ xs.length) :
    ∃ n, xs.length = n + k :=
  ⟨xs.length - k, by omega⟩

/-- The model of `json.Unmarshal` refuses what the model of `json.Marshal`
writes: the size is a JSON number and the field `size` of
`elasticsearchTopologyElement` is a string. -/
theorem jsonUnmarshal_jsonMarshal (e : ElasticsearchTopologyElement) (s : String)
    (hz : -2147483648 ≤ e.ZoneCount ∧ e.ZoneCount ≤ 2147483647)
    (hs : jsonMarshal e = .ok s) : jsonUnmarshal s = .error sizeTypeError := by
  obtain ⟨nt, z, sz⟩ := e
  simp only at hz
  unfold jsonMarshal at hs
  simp only [Except.ok.injEq] at hs
  subst hs
  by_cases h0 : z = 0
  · have hL : ("\x7b\"node_type\":\"".toList ++ escapeString nt.toList ++ ['"'] ++
        (if z = 0 then [] else ",\"zone_count\":".toList ++ intChars z) ++
        ",\"size\":".toList ++ intChars sz ++ ['}']) =
        '{' :: '"' :: ("node_type".toList ++ '"' :: ':' :: '"' :: (escapeString nt.toList ++
          '"' :: ',' :: '"' :: ("size".toList ++ '"' :: ':' :: (intChars sz ++ '}' :: [])))) := by
      rw [if_pos h0]
      simp only [List.append_assoc, List.nil_append]
      rfl
    have hread : ∀ n, readMembers (n + 2)
        ('"' :: ("node_type".toList ++ '"' :: ':' :: '"' :: (escapeString nt.toList ++
          '"' :: ',' :: '"' :: ("size".toList ++ '"' :: ':' :: (intChars sz ++ '}' :: []))))) =
        some ([("node_type".toList, .str nt.toList), ("size".toList, .num (intChars sz))], []) := by
      intro n
      rw [readMembers_str_comma _ _ _ _ rfl, readMembers_num_close _ _ _ _ rfl]
      rfl
    rw [hL]
    obtain ⟨n, hn⟩ := length_ge_add
      ('"' :: ("node_type".toList ++ '"' :: ':' :: '"' :: (escapeString nt.toList ++
          '"' :: ',' :: '"' :: ("size".toList ++ '"' :: ':' :: (intChars sz ++ '}' :: []))))) 2
      (by simp [List.length_append])
    rw [jsonUnmarshal_object _ _ (by rw [hn]; exact hread n)]
    exact decodeMembers_two _ _
  · have hL : ("\x7b\"node_type\":\"".toList ++ escapeString nt.toList ++ ['"'] ++
        (if z = 0 then [] else ",\"zone_count\":".toList ++ intChars z) ++
        ",\"size\":".toList ++ intChars sz ++ ['}']) =
        '{' :: '"' :: ("node_type".toList ++ '"' :: ':' :: '"' :: (escapeString nt.toList ++
          '"' :: ',' :: '"' :: ("zone_count".toList ++ '"' :: ':' :: (intChars z ++
          ',' :: '"' :: ("size".toList ++ '"' :: ':' :: (intChars sz ++ '}' :: [])))))) := by
      rw [if_neg h0]
      simp only [List.append_assoc, List.nil_append]
      rfl
    have hread : ∀ n, readMembers (n + 3)
        ('"' :: ("node_type".toList ++ '"' :: ':' :: '"' :: (escapeString nt.toList ++
          '"' :: ',' :: '"' :: ("zone_count".toList ++ '"' :: ':' :: (intChars z ++
          ',' :: '"' :: ("size".toList ++ '"' :: ':' :: (intChars sz ++ '}' :: []))))))) =
        some ([("node_type".toList, .str nt.toList), ("zone_count".toList, .num (intChars z)),
          ("size".toList, .num (intChars sz))], []) := by
      intro n
      rw [readMembers_str_comma _ _ _ _ rfl, readMembers_num_comma _ _ _ _ rfl,
        readMembers_num_close _ _ _ _ rfl]
      rfl
    rw [hL]
    obtain ⟨n, hn⟩ := length_ge_add
      ('"' :: ("node_type".toList ++ '"' :: ':' :: '"' :: (escapeString nt.toList ++
          '"' :: ',' :: '"' :: ("zone_count".toList ++ '"' :: ':' :: (intChars z ++
          ',' :: '"' :: ("size".toList ++ '"' :: ':' :: (intChars sz ++ '}' :: []))))))) 3
      (by simp [List.length_append])
    rw [jsonUnmarshal_object _ _ (by rw [hn]; exact hread n)]
    exact decodeMembers_three _ _ _ hz

/-! ## Normalizing twice -/

section Twice

variable {Payload Response : Type}

/-- C4 (as the code has it): with `encoding/json` as the codec, the output of
a successful `esTopologyParseGB` on a non-empty list is not accepted by a
second `esTopologyParseGB`: the output is not empty, its first string carries
a numeric size, which does not decode into the string field `size`, so the
second call stops at that string with the wrapped decode error and returns no
list. On the empty list both calls return the empty list. -/
theorem C4_second_pass_rejected (c : Collaborators Payload Response)
    (hU : c.jsonUnmarshal = jsonUnmarshal) (hM : c.jsonMarshal = jsonMarshal)
    (raw out : List String) (hne : raw ≠ [])
    (hfirst : (esTopologyParseGB c raw).2 = .ok out) :
    out ≠ []
      ∧ (esTopologyParseGB c out).2 =
          .error (.errorf "failed unpacking raw elasticsearch node topology: %s" sizeTypeError)
      ∧ (esTopologyParseGB c out).1 = (out.take 1).map Event.jsonUnmarshal
      ∧ (esTopologyParseGB c out).2 ≠ .ok out
      ∧ (esTopologyParseGB c []).2 = .ok [] := by
  rw [esTopologyParseGB_result, traverseFailFast_ok_iff] at hfirst
  cases hfirst with
  | nil => exact absurd rfl hne
  | @cons x y xs ys hxy hrest =>
    obtain ⟨element, mb, hu, -, -, hm⟩ := (normalizeStep_eq_ok_iff c x y).1 hxy
    rw [hU] at hu
    rw [hM] at hm
    have hy : c.jsonUnmarshal y = .error sizeTypeError := by
      rw [hU]
      exact jsonUnmarshal_jsonMarshal _ y (jsonUnmarshal_range x element hu) hm
    have hrun : esTopologyParseGB c (y :: ys) =
        ([.jsonUnmarshal y],
          .error (.errorf "failed unpacking raw elasticsearch node topology: %s"
            sizeTypeError)) := by
      simp [esTopologyParseGB, esTopologyLoop, hy]
    refine ⟨by simp, by rw [hrun], by rw [hrun]; rfl, ?_, rfl⟩
    rw [hrun]
    intro h
    cases h

/-- C4 at the fragments of scenario S3. -/
theorem C4_second_pass_rejected_witness :
    (esTopologyParseGB sampleCollaborators [dataFragment, masterFragment]).2 =
        .ok [dataNormalized, masterNormalized]
      ∧ (esTopologyParseGB sampleCollaborators [dataNormalized, masterNormalized]).2 =
          .error (.errorf "failed unpacking raw elasticsearch node topology: %s" sizeTypeError)
      ∧ (esTopologyParseGB sampleCollaborators [dataNormalized, masterNormalized]).1 =
          [.jsonUnmarshal dataNormalized] :=
  have h := C4_second_pass_rejected sampleCollaborators rfl rfl
    [dataFragment, masterFragment] [dataNormalized, masterNormalized] (by simp) rfl
  ⟨rfl, h.2.1, h.2.2.1⟩

/-- C4 as the claim states it fails: the fragments of scenario S3 normalize to
strings with the sizes 8192 and 1024, and normalizing those strings again does
not yield them: it fails. -/
theorem C4_counterexample :
    (esTopologyParseGB sampleCollaborators [dataFragment, masterFragment]).2 =
        .ok [dataNormalized, masterNormalized]
      ∧ (esTopologyParseGB sampleCollaborators [dataNormalized, masterNormalized]).2 ≠
          .ok [dataNormalized, masterNormalized] :=
  ⟨rfl, fun h => by
    have h2 : (esTopologyParseGB sampleCollaborators [dataNormalized, masterNormalized]).2 =
        .error (.errorf "failed unpacking raw elasticsearch node topology: %s"
          sizeTypeError) := rfl
    rw [h2] at h
    cases h⟩

end Twice

end Ecctl

